import Mathlib

/-!
Attendance tracker: report arithmetic, routes and store.

A shallow embedding of `backend/server.js` (the Express routes and the JWT
middleware) and of the per-subject card, `handleInputChange` and
`handleSaveAttendance` of `frontend/src/pages/Dashboard.jsx`.

Conventions of the embedding:

* the attendance counters are JavaScript numbers that hold integers (they are
  `Int` columns of the database); the counters, their sums and the integer
  expression `75 * total - 100 * attended` are modelled as `Int`, which a
  JavaScript number holds exactly below `2 ^ 53`;
* the quotient `attended / total` and its product with 100 are not integers:
  the percentage that the program computes is `percentage64`, with both
  operations rounded to binary64 by `binary64`; `percentage` is the exact
  rational value of the same expression;
* a JSON request body is an association list of field names and `JsVal`s;
* a Prisma call is a function from the store to `Except JsError _`; a `catch`
  block of a route is the `.error` branch of the match on that result.
-/

namespace Atten

/-! ## JavaScript values of a request body -/

/-- A JSON value as a route reads it from `req.body`: `other` stands for a
truthy, non-null value of another shape (non-integral number, array, object). -/
inductive JsVal where
  | undefined
  | null
  | bool (b : Bool)
  | num (n : Int)
  | str (s : String)
  | other
  deriving DecidableEq, Repr

namespace JsVal

/-- JavaScript truthiness, the negation of `!v`. -/
def truthy : JsVal → Bool
  | undefined => false
  | null => false
  | bool b => b
  | num n => n != 0
  | str s => s != ""
  | other => true

/-- The loose comparison `v == null`: true of `null` and `undefined` only. -/
def looseNull : JsVal → Bool
  | undefined => true
  | null => true
  | _ => false

end JsVal

/-! ## Rows of the database -/

/-- A row of the `User` table. -/
structure User where
  id : Int
  name : String
  email : String
  password_hash : String
  deriving DecidableEq, Repr

/-- A row of the `Attendance` table. -/
structure Attendance where
  id : Int
  subjectId : Int
  type : String
  total_classes : Int
  attended_classes : Int
  deriving DecidableEq, Repr

/-- A row of the `Subject` table. -/
structure Subject where
  id : Int
  subject_name : String
  userId : Int
  deriving DecidableEq, Repr

/-- A subject as a query with `include: { attendance: true }` returns it. -/
structure SubjectWithAttendance where
  id : Int
  subject_name : String
  userId : Int
  attendance : List Attendance
  deriving DecidableEq, Repr

/-! ## The aggregation of `GET /report` and of the dashboard card -/

/-- The body of a successful `GET /report`. -/
structure Report where
  total : Int
  attended : Int
  percentage : ℚ
  needed : Int
  deriving DecidableEq, Repr

/-- The two nested `forEach` loops of `GET /report` (server.js 160-167): the
pair `(total, attended)` after every record of every subject was added. -/
def accumulate (subjects : List SubjectWithAttendance) : Int × Int :=
  subjects.foldl
    (fun acc sub =>
      sub.attendance.foldl
        (fun acc att => (acc.1 + att.total_classes, acc.2 + att.attended_classes))
        acc)
    (0, 0)

/-- The expression `total > 0 ? (attended / total) * 100 : 0` (server.js 168,
Dashboard.jsx 351-352) as an exact rational, without the rounding of the
division and of the multiplication; `percentage64` is the value that the
program computes. -/
def percentage (total attended : Int) : ℚ :=
  if total > 0 then ((attended : ℚ) / (total : ℚ)) * 100 else 0

/-- Rounding of a rational to the nearest integer, a tie going to the even
one. -/
def roundHalfEven (q : ℚ) : ℤ :=
  if q - (⌊q⌋ : ℚ) < 1 / 2 then ⌊q⌋
  else if 1 / 2 < q - (⌊q⌋ : ℚ) then ⌊q⌋ + 1
  else if ⌊q⌋ % 2 = 0 then ⌊q⌋ else ⌊q⌋ + 1

/-- The binary64 number nearest to a rational, a tie going to the even
significand: with `2 ^ e ≤ |x| < 2 ^ (e + 1)` the significand has 53 bits, so
`x` is rounded to a multiple of `2 ^ (e - 52)`. The exponent range (overflow,
subnormal numbers) is not modelled; the quotients and products of the report
stay far inside it. -/
def binary64 (x : ℚ) : ℚ :=
  if x = 0 then 0
  else
    (roundHalfEven (x * (2 : ℚ) ^ (52 - Int.log 2 |x|)) : ℚ) * (2 : ℚ) ^ (Int.log 2 |x| - 52)

/-- The variable `percentage` as the program computes it,
`total > 0 ? (attended / total) * 100 : 0` (server.js 168, Dashboard.jsx
351-352): the division is rounded to binary64, and so is the product of the
rounded quotient with 100. -/
def percentage64 (total attended : Int) : ℚ :=
  if total > 0 then binary64 (binary64 ((attended : ℚ) / (total : ℚ)) * 100) else 0

/-- The expression
`percentage >= 75 ? 0 : Math.ceil((75 * total - 100 * attended) / 25)`
(server.js 169-170, Dashboard.jsx 353-356). The test is written on the exact
quotient; for totals below `2 ^ 52` the test on `percentage64` decides the
same (`percentage64_ge_iff`). -/
def needed (total attended : Int) : Int :=
  if percentage total attended ≥ 75 then 0
  else Int.ceil ((((75 * total - 100 * attended : Int)) : ℚ) / 25)

/-- The value `{ total, attended, percentage, needed }` that `GET /report`
sends for the subjects its query returned (server.js 160-171). -/
def report (subjects : List SubjectWithAttendance) : Report :=
  let acc := accumulate subjects
  { total := acc.1
    attended := acc.2
    percentage := percentage64 acc.1 acc.2
    needed := needed acc.1 acc.2 }

/-- The figures of one dashboard card. -/
structure Card where
  totalClasses : Int
  attendedClasses : Int
  percentage : ℚ
  needed : Int
  deriving DecidableEq, Repr

/-- The per-subject computation of the dashboard (Dashboard.jsx 343-356): two
`reduce` sums over the subject's records, then the same two expressions. -/
def card (sub : SubjectWithAttendance) : Card :=
  let totalClasses := sub.attendance.foldl (fun sum att => sum + att.total_classes) 0
  let attendedClasses := sub.attendance.foldl (fun sum att => sum + att.attended_classes) 0
  { totalClasses := totalClasses
    attendedClasses := attendedClasses
    percentage := percentage64 totalClasses attendedClasses
    needed := needed totalClasses attendedClasses }

/-- Every attendance record of a list of subjects, in the order the loops of
the report visit them. -/
def records (subjects : List SubjectWithAttendance) : List Attendance :=
  subjects.flatMap (fun sub => sub.attendance)

/-- The sum of `total_classes` over a list of records. -/
def sumTotal (l : List Attendance) : Int := (l.map (fun att => att.total_classes)).sum

/-- The sum of `attended_classes` over a list of records. -/
def sumAttended (l : List Attendance) : Int := (l.map (fun att => att.attended_classes)).sum

/-! ## Requests, responses and the external collaborators -/

/-- What a `throw` inside a route can be: a rejected Prisma call (constraint
violation, missing record, argument of the wrong type, lost connection) or a
`TypeError` of a library. -/
inductive JsError where
  | uniqueConstraint
  | foreignKey
  | recordNotFound
  | validation
  | connection
  | typeError
  deriving DecidableEq, Repr

/-- An HTTP request as the routes read it: the `Authorization` header, the
parsed JSON body and the path parameter `:id`. -/
structure Request where
  authorization : Option String
  body : List (String × JsVal)
  id : String
  deriving Repr

/-- The destructuring `const { k } = req.body`: an absent field is `undefined`. -/
def Request.field (req : Request) (k : String) : JsVal :=
  (req.body.lookup k).getD JsVal.undefined

/-- The JSON a route sends. -/
inductive Payload where
  | error (msg : String)
  | message (msg : String)
  | token (t : String)
  | subject (sub : SubjectWithAttendance)
  | subjects (subs : List SubjectWithAttendance)
  | attendance (att : Attendance)
  | report (r : Report)
  deriving DecidableEq, Repr

/-- The reply `res.status(status).json(body)`. -/
structure Response where
  status : Nat
  body : Payload
  deriving DecidableEq, Repr

/-- The libraries `bcrypt` and `jsonwebtoken`, taken as parameters: `hash` is
`bcrypt.hash(_, 10)`, `compare` is `bcrypt.compare`, `sign` is
`jwt.sign({ id }, JWT_SECRET, { expiresIn: "1d" })`, and `verify` is
`jwt.verify(_, JWT_SECRET)` followed by `.id`, `none` when it throws. -/
structure Crypto where
  hash : String → String
  compare : String → String → Bool
  sign : Int → String
  verify : String → Option Int

/-- The tables behind the Prisma client and their autoincrement sequences. -/
structure Store where
  users : List User
  subjects : List Subject
  attendance : List Attendance
  userSeq : Int
  subjectSeq : Int
  attendanceSeq : Int
  deriving DecidableEq, Repr

/-- The Prisma calls of server.js, each a function of the store that either
rejects or returns its result (and the new store when it writes). The routes
are written over this interface. -/
structure Prisma where
  userCreate : String → String → String → Store → Except JsError (User × Store)
  userFindUnique : String → Store → Except JsError (Option User)
  subjectCreate : String → Int → List (String × Int × Int) → Store →
    Except JsError (SubjectWithAttendance × Store)
  subjectFindMany : Int → Store → Except JsError (List SubjectWithAttendance)
  attendanceUpsert : Int → String → Int → Int → Store → Except JsError (Attendance × Store)
  attendanceDeleteMany : Int → Store → Except JsError (Nat × Store)
  subjectDelete : Int → Store → Except JsError (Subject × Store)

/-- Prisma checks the type of an argument before it runs a query: a `String`
column takes a string. -/
def asString : JsVal → Except JsError String
  | JsVal.str s => Except.ok s
  | _ => Except.error JsError.validation

/-- Prisma checks the type of an argument before it runs a query: an `Int`
column takes an integer. -/
def asInt : JsVal → Except JsError Int
  | JsVal.num n => Except.ok n
  | _ => Except.error JsError.validation

/-! ## `parseInt` -/

/-- White space that `parseInt` skips at the start of its argument. -/
def isJsSpace (c : Char) : Bool :=
  let n := c.toNat
  n = 9 || n = 10 || n = 11 || n = 12 || n = 13 || n = 32 || n = 160 || n = 5760 ||
    (8192 ≤ n && n ≤ 8202) || n = 8232 || n = 8233 || n = 8239 || n = 8287 ||
    n = 12288 || n = 65279

/-- The value of a character as a digit, `0`-`9` then letters of either case. -/
def digitValue (c : Char) : Option Nat :=
  let n := c.toNat
  if 48 ≤ n && n ≤ 57 then some (n - 48)
  else if 97 ≤ n && n ≤ 122 then some (n - 87)
  else if 65 ≤ n && n ≤ 90 then some (n - 55)
  else none

/-- The longest prefix of digits of the radix, read as a number; `none` when
that prefix is empty. -/
def readDigits (radix : Nat) : List Char → Option Nat → Option Nat
  | [], acc => acc
  | c :: cs, acc =>
    match digitValue c with
    | some d => if d < radix then readDigits radix cs (some (acc.getD 0 * radix + d)) else acc
    | none => acc

/-- The standard function `parseInt(string, radix)` on a string; radix `0` is
an absent radix and `none` is `NaN`. -/
def parseInt (string : String) (radix : Nat) : Option Int :=
  let s := string.toList.dropWhile isJsSpace
  let sign : Int := if s.head? = some '-' then -1 else 1
  let s := if s.head? = some '-' || s.head? = some '+' then s.tail else s
  if radix ≠ 0 && (radix < 2 || 36 < radix) then none
  else
    let stripPrefix := radix = 0 || radix = 16
    let r := if radix = 0 then 10 else radix
    let hex := stripPrefix && (s.take 2 = ['0', 'x'] || s.take 2 = ['0', 'X'])
    let s := if hex then s.drop 2 else s
    let r := if hex then 16 else r
    (readDigits r s none).map (fun n => sign * (n : Int))

/-! ## The middleware -/

/-- The pieces of `s.split(sep)` for a one-character separator. -/
def splitChars (sep : Char) : List Char → List (List Char)
  | [] => [[]]
  | c :: cs =>
    if c = sep then [] :: splitChars sep cs
    else
      match splitChars sep cs with
      | [] => [[c]]
      | w :: ws => (c :: w) :: ws

/-- The expression `req.headers.authorization?.split(" ")[1]`; `none` is
`undefined`. -/
def bearerToken (req : Request) : Option String :=
  req.authorization.bind (fun h => ((splitChars ' ' h.toList).get? 1).map String.mk)

/-- The function `authMiddleware` (server.js 16-28): either the 401 reply it
sends, or the `req.userId` it sets before it calls `next()`. -/
def authMiddleware (c : Crypto) (req : Request) : Except Response Int :=
  match bearerToken req with
  | none => Except.error ⟨401, Payload.error "No token provided."⟩
  | some token =>
    if token = "" then Except.error ⟨401, Payload.error "No token provided."⟩
    else
      match c.verify token with
      | some id => Except.ok id
      | none => Except.error ⟨401, Payload.error "Invalid token."⟩

/-- A route registered as `app.METHOD(path, authMiddleware, handler)`: the
handler runs only when the middleware calls `next()`, with the `req.userId`
the middleware has set. -/
def withAuth (c : Crypto) (handler : Int → Request → Store → Response × Store)
    (req : Request) (s : Store) : Response × Store :=
  match authMiddleware c req with
  | Except.error res => (res, s)
  | Except.ok userId => handler userId req s

/-! ## The routes -/

/-- The route `POST /auth/signup` (server.js 35-49). -/
def signup (db : Prisma) (c : Crypto) (req : Request) (s : Store) : Response × Store :=
  let name := req.field "name"
  let email := req.field "email"
  let password := req.field "password"
  if !name.truthy || !email.truthy || !password.truthy then
    (⟨400, Payload.error "All fields are required."⟩, s)
  else
    let attempt : Except JsError (User × Store) :=
      match password with
      | JsVal.str pw =>
        match asString name, asString email with
        | Except.ok n, Except.ok e => db.userCreate n e (c.hash pw) s
        | _, _ => Except.error JsError.validation
      | _ => Except.error JsError.typeError
    match attempt with
    | Except.ok (_, s1) => (⟨201, Payload.message "User created successfully."⟩, s1)
    | Except.error _ => (⟨400, Payload.error "User with this email already exists."⟩, s)

/-- The route `POST /auth/login` (server.js 51-68). It has no `try`: a call
that throws rejects the handler and no reply is sent, which is the `.error`
result here. The store is only read. -/
def login (db : Prisma) (c : Crypto) (req : Request) (s : Store) : Except JsError Response :=
  let email := req.field "email"
  let password := req.field "password"
  if !email.truthy || !password.truthy then
    Except.ok ⟨400, Payload.error "Email and password are required."⟩
  else
    match asString email with
    | Except.error e => Except.error e
    | Except.ok em =>
      match db.userFindUnique em s with
      | Except.error e => Except.error e
      | Except.ok none => Except.ok ⟨400, Payload.error "Invalid email or password."⟩
      | Except.ok (some user) =>
        match password with
        | JsVal.str pw =>
          if !c.compare pw user.password_hash then
            Except.ok ⟨400, Payload.error "Invalid email or password."⟩
          else Except.ok ⟨200, Payload.token (c.sign user.id)⟩
        | _ => Except.error JsError.typeError

/-- The handler of `POST /subjects` (server.js 70-97), run after the
middleware has set `req.userId`. -/
def postSubjects (db : Prisma) (userId : Int) (req : Request) (s : Store) : Response × Store :=
  let subject_name := req.field "subject_name"
  if !subject_name.truthy then
    (⟨400, Payload.error "Subject name is required."⟩, s)
  else
    let attempt : Except JsError (SubjectWithAttendance × Store) :=
      match asString subject_name with
      | Except.ok name => db.subjectCreate name userId [("class", 0, 0), ("lab", 0, 0)] s
      | Except.error e => Except.error e
    match attempt with
    | Except.ok (subject, s1) => (⟨201, Payload.subject subject⟩, s1)
    | Except.error _ => (⟨500, Payload.error "Failed to add subject."⟩, s)

/-- The handler of `GET /subjects` (server.js 99-109). -/
def getSubjects (db : Prisma) (userId : Int) (_req : Request) (s : Store) : Response × Store :=
  match db.subjectFindMany userId s with
  | Except.ok subjects => (⟨200, Payload.subjects subjects⟩, s)
  | Except.error _ => (⟨500, Payload.error "Failed to fetch subjects."⟩, s)

/-- The handler of `POST /attendance` (server.js 111-141). `req.userId` is not
read. -/
def postAttendance (db : Prisma) (_userId : Int) (req : Request) (s : Store) :
    Response × Store :=
  let subjectId := req.field "subjectId"
  let type := req.field "type"
  let total_classes := req.field "total_classes"
  let attended_classes := req.field "attended_classes"
  if !subjectId.truthy || !type.truthy || total_classes.looseNull ||
      attended_classes.looseNull then
    (⟨400, Payload.error "All fields are required."⟩, s)
  else
    let attempt : Except JsError (Attendance × Store) :=
      match asInt subjectId, asString type, asInt total_classes, asInt attended_classes with
      | Except.ok sid, Except.ok ty, Except.ok total, Except.ok attended =>
        db.attendanceUpsert sid ty total attended s
      | _, _, _, _ => Except.error JsError.validation
    match attempt with
    | Except.ok (updated, s1) => (⟨200, Payload.attendance updated⟩, s1)
    | Except.error _ => (⟨500, Payload.error "Failed to update attendance."⟩, s)

/-- The handler of `DELETE /subjects/:id` (server.js 143-152). `req.userId` is
not read. When `deleteMany` has run and `delete` throws, the rows that
`deleteMany` removed stay removed. -/
def deleteSubject (db : Prisma) (_userId : Int) (req : Request) (s : Store) :
    Response × Store :=
  match parseInt req.id 0 with
  | none => (⟨500, Payload.error "Failed to delete subject."⟩, s)
  | some id =>
    match db.attendanceDeleteMany id s with
    | Except.error _ => (⟨500, Payload.error "Failed to delete subject."⟩, s)
    | Except.ok (_, s1) =>
      match db.subjectDelete id s1 with
      | Except.error _ => (⟨500, Payload.error "Failed to delete subject."⟩, s1)
      | Except.ok (_, s2) => (⟨200, Payload.message "Subject deleted successfully."⟩, s2)

/-- The handler of `GET /report` (server.js 154-175). -/
def getReport (db : Prisma) (userId : Int) (_req : Request) (s : Store) : Response × Store :=
  match db.subjectFindMany userId s with
  | Except.ok subjects => (⟨200, Payload.report (report subjects)⟩, s)
  | Except.error _ => (⟨500, Payload.error "Failed to generate report."⟩, s)

/-- The five routes registered behind `authMiddleware`. -/
inductive Protected where
  | createSubject
  | listSubjects
  | upsertAttendance
  | deleteSubject
  | report
  deriving DecidableEq, Repr

/-- The handler registered for a protected route. -/
def Protected.handler (db : Prisma) : Protected → Int → Request → Store → Response × Store
  | Protected.createSubject => postSubjects db
  | Protected.listSubjects => getSubjects db
  | Protected.upsertAttendance => postAttendance db
  | Protected.deleteSubject => Atten.deleteSubject db
  | Protected.report => getReport db

/-- A request to a protected route: the middleware, then the handler. -/
def serve (db : Prisma) (c : Crypto) (r : Protected) (req : Request) (s : Store) :
    Response × Store :=
  withAuth c (r.handler db) req s

/-! ## The relational store -/

namespace Store

/-- Whether a row has the compound key `subjectId_type`. -/
def hasKey (subjectId : Int) (type : String) (att : Attendance) : Bool :=
  att.subjectId == subjectId && att.type == type

/-- The attendance rows of a subject. -/
def children (s : Store) (subjectId : Int) : List Attendance :=
  s.attendance.filter (fun att => att.subjectId == subjectId)

/-- The clause `include: { attendance: true }`. -/
def withAttendance (s : Store) (sub : Subject) : SubjectWithAttendance :=
  { id := sub.id
    subject_name := sub.subject_name
    userId := sub.userId
    attendance := s.children sub.id }

/-- The subjects whose `userId` is the given one. -/
def owned (s : Store) (userId : Int) : List Subject :=
  s.subjects.filter (fun sub => sub.userId == userId)

/-- Modelled from the spec: the schema file of the Prisma client is not among
the sources. `prisma.user.create`: the email is unique; the id comes from the
autoincrement sequence. -/
def userCreate (name email password_hash : String) (s : Store) :
    Except JsError (User × Store) :=
  if s.users.any (fun u => u.email == email) then Except.error JsError.uniqueConstraint
  else
    let user : User := ⟨s.userSeq, name, email, password_hash⟩
    Except.ok (user, { s with users := s.users ++ [user], userSeq := s.userSeq + 1 })

/-- Modelled from the spec: the schema file of the Prisma client is not among
the sources. `prisma.user.findUnique({ where: { email } })`. -/
def userFindUnique (email : String) (s : Store) : Except JsError (Option User) :=
  Except.ok (s.users.find? (fun u => u.email == email))

/-- The rows a nested `createMany` inserts for a subject, with consecutive ids
from the given start. -/
def newRows (subjectId : Int) : Int → List (String × Int × Int) → List Attendance
  | _, [] => []
  | id, (type, total, attended) :: rest =>
    ⟨id, subjectId, type, total, attended⟩ :: newRows subjectId (id + 1) rest

/-- Modelled from the spec: the schema file of the Prisma client is not among
the sources. `prisma.subject.create` with a nested `createMany` and
`include: { attendance: true }`: the owner must be a user, the rows of one
subject have distinct types, the subject and its rows are inserted together
(Section 4.3: all of them or none), and the subject is read back with the rows
that reference it. -/
def subjectCreate (subject_name : String) (userId : Int)
    (rows : List (String × Int × Int)) (s : Store) :
    Except JsError (SubjectWithAttendance × Store) :=
  if !s.users.any (fun u => u.id == userId) then Except.error JsError.foreignKey
  else if !(rows.map (fun r => r.1)).Nodup then Except.error JsError.uniqueConstraint
  else
    let sub : Subject := ⟨s.subjectSeq, subject_name, userId⟩
    let s1 : Store :=
      { s with
        subjects := s.subjects ++ [sub]
        attendance := s.attendance ++ newRows sub.id s.attendanceSeq rows
        subjectSeq := s.subjectSeq + 1
        attendanceSeq := s.attendanceSeq + rows.length }
    Except.ok (s1.withAttendance sub, s1)

/-- Modelled from the spec: the schema file of the Prisma client is not among
the sources. `prisma.subject.findMany({ where: { userId }, include: { attendance: true } })`. -/
def subjectFindMany (userId : Int) (s : Store) : Except JsError (List SubjectWithAttendance) :=
  Except.ok ((s.owned userId).map s.withAttendance)

/-- The `update` branch of an upsert on one row. -/
def overwrite (subjectId : Int) (type : String) (total attended : Int)
    (att : Attendance) : Attendance :=
  if hasKey subjectId type att then
    { att with total_classes := total, attended_classes := attended }
  else att

/-- Modelled from the spec: the schema file of the Prisma client is not among
the sources. `prisma.attendance.upsert` keyed by `subjectId_type` (Section 4.2:
create the row if absent, else overwrite both counters): a new row needs its
subject to exist. -/
def attendanceUpsert (subjectId : Int) (type : String) (total attended : Int) (s : Store) :
    Except JsError (Attendance × Store) :=
  match s.attendance.find? (hasKey subjectId type) with
  | some att =>
    Except.ok (overwrite subjectId type total attended att,
      { s with attendance := s.attendance.map (overwrite subjectId type total attended) })
  | none =>
    if s.subjects.any (fun sub => sub.id == subjectId) then
      let att : Attendance := ⟨s.attendanceSeq, subjectId, type, total, attended⟩
      Except.ok (att,
        { s with attendance := s.attendance ++ [att], attendanceSeq := s.attendanceSeq + 1 })
    else Except.error JsError.foreignKey

/-- Modelled from the spec: the schema file of the Prisma client is not among
the sources. `prisma.attendance.deleteMany({ where: { subjectId } })`: it
returns the number of rows it removed. -/
def attendanceDeleteMany (subjectId : Int) (s : Store) : Except JsError (Nat × Store) :=
  Except.ok ((s.children subjectId).length,
    { s with attendance := s.attendance.filter (fun att => att.subjectId != subjectId) })

/-- Modelled from the spec: the schema file of the Prisma client is not among
the sources. `prisma.subject.delete({ where: { id } })`: the subject must exist
and must have no attendance row left (Section 3: children are deleted before
the parent). -/
def subjectDelete (id : Int) (s : Store) : Except JsError (Subject × Store) :=
  match s.subjects.find? (fun sub => sub.id == id) with
  | none => Except.error JsError.recordNotFound
  | some sub =>
    if s.attendance.any (fun att => att.subjectId == id) then Except.error JsError.foreignKey
    else Except.ok (sub, { s with subjects := s.subjects.filter (fun x => x.id != id) })

/-- The constraints of the schema as an invariant of the store: ids are below
their sequences, subject ids are distinct, every attendance row references a
subject, and `(subjectId, type)` is unique. -/
structure WF (s : Store) : Prop where
  subjectIds : ∀ sub ∈ s.subjects, sub.id < s.subjectSeq
  subjectNodup : (s.subjects.map (fun sub => sub.id)).Nodup
  parent : ∀ att ∈ s.attendance, ∃ sub ∈ s.subjects, sub.id = att.subjectId
  uniqueKey : (s.attendance.map (fun att => (att.subjectId, att.type))).Nodup

end Store

/-- The Prisma client over the store. -/
def prisma : Prisma where
  userCreate := Store.userCreate
  userFindUnique := Store.userFindUnique
  subjectCreate := Store.subjectCreate
  subjectFindMany := Store.subjectFindMany
  attendanceUpsert := Store.attendanceUpsert
  attendanceDeleteMany := Store.attendanceDeleteMany
  subjectDelete := Store.subjectDelete

/-! ## The specification of `needed` and sample data -/

/-- The words of the spec for `needed`, as a predicate on a candidate `n`:
it is `0` if `attended / total ≥ 0.75`, and otherwise the least non-negative
integer with `(attended + n) / (total + n) ≥ 0.75`. -/
def LeastNeeded (total attended n : Int) : Prop :=
  ((attended : ℚ) / (total : ℚ) ≥ 3 / 4 → n = 0) ∧
  ((attended : ℚ) / (total : ℚ) < 3 / 4 →
    0 ≤ n ∧
    ((attended : ℚ) + (n : ℚ)) / ((total : ℚ) + (n : ℚ)) ≥ 3 / 4 ∧
    ∀ m : Int, 0 ≤ m → ((attended : ℚ) + (m : ℚ)) / ((total : ℚ) + (m : ℚ)) ≥ 3 / 4 → n ≤ m)

/-- A subject with 100 classes in total, 70 of them attended. -/
def mathSubject : SubjectWithAttendance :=
  ⟨1, "Math", 1, [⟨1, 1, "class", 60, 50⟩, ⟨2, 1, "lab", 40, 20⟩]⟩

/-- A subject with 40 classes, all attended. -/
def physicsSubject : SubjectWithAttendance :=
  ⟨2, "Physics", 1, [⟨3, 2, "class", 40, 40⟩, ⟨4, 2, "lab", 0, 0⟩]⟩

/-- A subject as `POST /subjects` creates it: two rows with zero counts. -/
def freshSubject : SubjectWithAttendance :=
  ⟨3, "Art", 1, [⟨5, 3, "class", 0, 0⟩, ⟨6, 3, "lab", 0, 0⟩]⟩

/-- A subject whose row has 5 attended classes out of 0, which
`POST /attendance` stores as it stores any pair of integers. -/
def straySubject : SubjectWithAttendance :=
  ⟨4, "Chemistry", 1, [⟨7, 4, "class", 0, 5⟩]⟩

/-- A store with two users: Ann (id 1) owns subject 1, Bob (id 2) owns
subject 2, each subject with its two rows. -/
def sampleStore : Store :=
  { users :=
      [⟨1, "Ann", "ann@example.org", "hash-a"⟩, ⟨2, "Bob", "bob@example.org", "hash-b"⟩]
    subjects := [⟨1, "Math", 1⟩, ⟨2, "Physics", 2⟩]
    attendance :=
      [⟨1, 1, "class", 60, 50⟩, ⟨2, 1, "lab", 40, 20⟩, ⟨3, 2, "class", 40, 40⟩,
        ⟨4, 2, "lab", 0, 0⟩]
    userSeq := 3
    subjectSeq := 3
    attendanceSeq := 5 }

/-- The store `sampleStore` without Bob's subject and its rows. -/
def annOnlyStore : Store :=
  { users :=
      [⟨1, "Ann", "ann@example.org", "hash-a"⟩, ⟨2, "Bob", "bob@example.org", "hash-b"⟩]
    subjects := [⟨1, "Math", 1⟩]
    attendance := [⟨1, 1, "class", 60, 50⟩, ⟨2, 1, "lab", 40, 20⟩]
    userSeq := 3
    subjectSeq := 3
    attendanceSeq := 5 }

/-- A stand-in for the two libraries: the token `"ann"` verifies to user 1,
the token `"bob"` to user 2, and every other token is rejected. -/
def sampleCrypto : Crypto where
  hash := fun pw => "hash-" ++ pw
  compare := fun pw h => "hash-" ++ pw == h
  sign := fun id => if id = 1 then "ann" else if id = 2 then "bob" else "none"
  verify := fun t => if t = "ann" then some 1 else if t = "bob" then some 2 else none

/-- A Prisma client whose database is unreachable: every call rejects. -/
def downPrisma : Prisma where
  userCreate := fun _ _ _ _ => Except.error JsError.connection
  userFindUnique := fun _ _ => Except.error JsError.connection
  subjectCreate := fun _ _ _ _ => Except.error JsError.connection
  subjectFindMany := fun _ _ => Except.error JsError.connection
  attendanceUpsert := fun _ _ _ _ _ => Except.error JsError.connection
  attendanceDeleteMany := fun _ _ => Except.error JsError.connection
  subjectDelete := fun _ _ => Except.error JsError.connection

/-- Ann's request to store 50 attended classes out of 40 on her own subject. -/
def overReq : Request :=
  { authorization := some "Bearer ann"
    body :=
      [("subjectId", JsVal.num 1), ("type", JsVal.str "class"),
        ("total_classes", JsVal.num 40), ("attended_classes", JsVal.num 50)]
    id := "" }

/-- Ann's request to overwrite the class row of Bob's subject 2. -/
def crossUpsertReq : Request :=
  { authorization := some "Bearer ann"
    body :=
      [("subjectId", JsVal.num 2), ("type", JsVal.str "class"),
        ("total_classes", JsVal.num 10), ("attended_classes", JsVal.num 0)]
    id := "" }

/-- Ann's request `DELETE /subjects/2`, Bob's subject. -/
def crossDeleteReq : Request :=
  { authorization := some "Bearer ann", body := [], id := "2" }

/-- A request of Bob's that carries no body, as `GET /subjects` and
`GET /report` do. -/
def bobReadReq : Request :=
  { authorization := some "Bearer bob", body := [], id := "" }

/-- A request of Ann's that carries no body. -/
def annReadReq : Request :=
  { authorization := some "Bearer ann", body := [], id := "" }

/-- Ann's request to create the subject "Math"; the body also carries a
`userId` field of Bob's, which no route reads. -/
def createReq : Request :=
  { authorization := some "Bearer ann"
    body := [("subject_name", JsVal.str "Math"), ("userId", JsVal.num 2)]
    id := "" }

/-- A request without an `Authorization` header. -/
def anonymousReq : Request :=
  { authorization := none, body := [("subject_name", JsVal.str "Math")], id := "" }

/-- A signup request with every field present. -/
def signupReq : Request :=
  { authorization := none
    body :=
      [("name", JsVal.str "Cy"), ("email", JsVal.str "cy@example.org"),
        ("password", JsVal.str "pw")]
    id := "" }

/-- A login request with both fields present. -/
def loginReq : Request :=
  { authorization := none
    body := [("email", JsVal.str "ann@example.org"), ("password", JsVal.str "a")]
    id := "" }

/-! ## The dashboard: editing and saving a record -/

/-- The two values that the dashboard passes as `field` to `handleInputChange`
(Dashboard.jsx 409-414 and 424-429). -/
inductive Field where
  | total_classes
  | attended_classes
  deriving DecidableEq, Repr

/-- The object spread `{ ...att, [field]: v }`. -/
def Attendance.set (att : Attendance) (field : Field) (v : Int) : Attendance :=
  match field with
  | Field.total_classes => { att with total_classes := v }
  | Field.attended_classes => { att with attended_classes := v }

/-- The variable `numValue` of `handleInputChange` (Dashboard.jsx 123-126):
`parseInt(value, 10)`, replaced by `0` when it is `NaN` or negative. -/
def numValue (value : String) : Int :=
  match parseInt value 10 with
  | none => 0
  | some n => if n < 0 then 0 else n

/-- The body of the inner `map` of `handleInputChange` for a record of the
edited type (Dashboard.jsx 132-153), with the parsed number as argument. -/
def updatedAtt (field : Field) (num : Int) (att : Attendance) : Attendance :=
  if field = Field.attended_classes ∧
      (att.set field num).attended_classes > (att.set field num).total_classes then
    att.set field att.total_classes
  else if field = Field.total_classes ∧
      (att.set field num).attended_classes > (att.set field num).total_classes then
    { att.set field num with attended_classes := (att.set field num).total_classes }
  else att.set field num

/-- The function `handleInputChange` (Dashboard.jsx 122-162): the new
`subjects` state that it passes to `setSubjects`. -/
def handleInputChange (subjects : List SubjectWithAttendance) (subjectId : Int)
    (type : String) (field : Field) (value : String) : List SubjectWithAttendance :=
  subjects.map (fun sub =>
    if sub.id = subjectId then
      { sub with
        attendance :=
          sub.attendance.map (fun att =>
            if att.type = type then updatedAtt field (numValue value) att else att) }
    else sub)

/-- What `handleSaveAttendance` does: nothing, an alert, or the call
`updateAttendance(subjectId, type, newTotal, newAttended)` that posts the
record to `/attendance`. -/
inductive SaveAction where
  | nothing
  | alert (msg : String)
  | updateAttendance (subjectId : Int) (type : String) (newTotal newAttended : Int)
  deriving DecidableEq, Repr

/-- The function `handleSaveAttendance` (Dashboard.jsx 164-181). -/
def handleSaveAttendance (subjects : List SubjectWithAttendance) (subjectId : Int)
    (type : String) : SaveAction :=
  match subjects.find? (fun sub => sub.id == subjectId) with
  | none => SaveAction.nothing
  | some subject =>
    match subject.attendance.find? (fun att => att.type == type) with
    | none => SaveAction.nothing
    | some attendance =>
      if attendance.attended_classes > attendance.total_classes then
        SaveAction.alert "Attended classes cannot be more than total classes."
      else
        SaveAction.updateAttendance subjectId type attendance.total_classes
          attendance.attended_classes

/-- A dashboard state whose class row has negative counters, as
`GET /subjects` returns it once `POST /attendance` has stored them. -/
def negativeState : List SubjectWithAttendance :=
  [⟨1, "Math", 1, [⟨1, 1, "class", -5, -5⟩, ⟨2, 1, "lab", 40, 20⟩]⟩]

/-! ## Lemmas on the rounding to the nearest integer -/

theorem roundHalfEven_floor_le (q : ℚ) : ⌊q⌋ ≤ roundHalfEven q := by
  unfold roundHalfEven
  split
  · exact le_refl _
  · split
    · omega
    · split <;> omega

theorem roundHalfEven_le_floor_succ (q : ℚ) : roundHalfEven q ≤ ⌊q⌋ + 1 := by
  unfold roundHalfEven
  split
  · omega
  · split
    · exact le_refl _
    · split <;> omega

theorem roundHalfEven_of_frac_lt (q : ℚ) (h : q - (⌊q⌋ : ℚ) < 1 / 2) :
    roundHalfEven q = ⌊q⌋ := by
  simp only [roundHalfEven, h, if_true]

theorem roundHalfEven_of_frac_gt (q : ℚ) (h : 1 / 2 < q - (⌊q⌋ : ℚ)) :
    roundHalfEven q = ⌊q⌋ + 1 := by
  have h' : ¬ q - (⌊q⌋ : ℚ) < 1 / 2 := not_lt.2 (le_of_lt h)
  simp only [roundHalfEven, h', if_false, h, if_true]

theorem roundHalfEven_intCast (n : ℤ) : roundHalfEven (n : ℚ) = n := by
  rw [roundHalfEven_of_frac_lt] <;> simp

theorem roundHalfEven_le_of_lt (q : ℚ) (n : ℤ) (h : q < (n : ℚ) + 1 / 2) :
    roundHalfEven q ≤ n := by
  have hf : ⌊q⌋ ≤ n := by
    have : ⌊q⌋ < n + 1 := by
      rw [Int.floor_lt]
      push_cast
      linarith
    omega
  rcases lt_or_eq_of_le hf with hlt | heq
  · have := roundHalfEven_le_floor_succ q
    omega
  · rw [roundHalfEven_of_frac_lt q (by rw [heq]; linarith), heq]

theorem roundHalfEven_ge_of_gt (q : ℚ) (n : ℤ) (h : (n : ℚ) - 1 / 2 < q) :
    n ≤ roundHalfEven q := by
  have hf : n - 1 ≤ ⌊q⌋ := by
    rw [Int.le_floor]
    push_cast
    linarith
  rcases lt_or_eq_of_le hf with hlt | heq
  · have := roundHalfEven_floor_le q
    omega
  · have hfl : (⌊q⌋ : ℚ) = (n : ℚ) - 1 := by rw [← heq]; push_cast; ring
    rw [roundHalfEven_of_frac_gt q (by rw [hfl]; linarith), ← heq]
    omega

theorem roundHalfEven_eq (q : ℚ) (n : ℤ) (h1 : (n : ℚ) - 1 / 2 < q) (h2 : q < (n : ℚ) + 1 / 2) :
    roundHalfEven q = n :=
  le_antisymm (roundHalfEven_le_of_lt q n h2) (roundHalfEven_ge_of_gt q n h1)

theorem roundHalfEven_mono (q r : ℚ) (h : q ≤ r) : roundHalfEven q ≤ roundHalfEven r := by
  rcases eq_or_lt_of_le h with rfl | hlt
  · exact le_refl _
  · have hf : ⌊q⌋ ≤ ⌊r⌋ := Int.floor_mono h
    rcases lt_or_eq_of_le hf with hfl | hfe
    · have h1 := roundHalfEven_le_floor_succ q
      have h2 := roundHalfEven_floor_le r
      omega
    · by_cases hq : q - (⌊q⌋ : ℚ) < 1 / 2
      · rw [roundHalfEven_of_frac_lt q hq, hfe]
        exact roundHalfEven_floor_le r
      · have hr : 1 / 2 < r - (⌊r⌋ : ℚ) := by
          rw [← hfe]
          have := not_lt.1 hq
          linarith
        rw [roundHalfEven_of_frac_gt r hr, ← hfe]
        exact roundHalfEven_le_floor_succ q

theorem roundHalfEven_le_of_le (q : ℚ) (n : ℤ) (h : q ≤ (n : ℚ)) : roundHalfEven q ≤ n := by
  have := roundHalfEven_mono q n h
  rwa [roundHalfEven_intCast] at this

theorem roundHalfEven_ge_of_ge (q : ℚ) (n : ℤ) (h : (n : ℚ) ≤ q) : n ≤ roundHalfEven q := by
  have := roundHalfEven_mono n q h
  rwa [roundHalfEven_intCast] at this

/-! ## Lemmas on the rounding to binary64 -/

theorem log_two_eq (x : ℚ) (e : ℤ) (hx : 0 < x) (h1 : (2 : ℚ) ^ e ≤ x)
    (h2 : x < (2 : ℚ) ^ (e + 1)) : Int.log 2 x = e := by
  have hb : 1 < 2 := by norm_num
  have ha : e ≤ Int.log 2 x := by
    rw [← Int.zpow_le_iff_le_log hb hx]
    exact_mod_cast h1
  have hc : Int.log 2 x < e + 1 := by
    rw [← Int.lt_zpow_iff_log_lt hb hx]
    exact_mod_cast h2
  omega

theorem binary64_of_binade (x : ℚ) (e : ℤ) (hx : 0 < x) (h1 : (2 : ℚ) ^ e ≤ x)
    (h2 : x < (2 : ℚ) ^ (e + 1)) :
    binary64 x = (roundHalfEven (x * (2 : ℚ) ^ (52 - e)) : ℚ) * (2 : ℚ) ^ (e - 52) := by
  unfold binary64
  rw [if_neg (ne_of_gt hx), abs_of_pos hx, log_two_eq x e hx h1 h2]

theorem binade_exists (x : ℚ) (hx : 0 < x) :
    (2 : ℚ) ^ (Int.log 2 x) ≤ x ∧ x < (2 : ℚ) ^ (Int.log 2 x + 1) := by
  have hb : 1 < 2 := by norm_num
  constructor
  · exact_mod_cast Int.zpow_log_le_self hb hx
  · exact_mod_cast Int.lt_zpow_succ_log_self hb x

theorem binary64_eval (x : ℚ) (e : ℤ) (n : ℤ) (hx : 0 < x) (h1 : (2 : ℚ) ^ e ≤ x)
    (h2 : x < (2 : ℚ) ^ (e + 1)) (h3 : (n : ℚ) - 1 / 2 < x * (2 : ℚ) ^ (52 - e))
    (h4 : x * (2 : ℚ) ^ (52 - e) < (n : ℚ) + 1 / 2) :
    binary64 x = (n : ℚ) * (2 : ℚ) ^ (e - 52) := by
  rw [binary64_of_binade x e hx h1 h2, roundHalfEven_eq _ n h3 h4]

theorem binary64_zero : binary64 0 = 0 := by
  simp [binary64]

theorem two_zpow_pos (k : ℤ) : (0 : ℚ) < (2 : ℚ) ^ k := zpow_pos (by norm_num) k

/-- In the binade of exponent `e` the rounded value stays within the binade's
closed interval. -/
theorem binary64_binade_bounds (x : ℚ) (e : ℤ) (hx : 0 < x) (h1 : (2 : ℚ) ^ e ≤ x)
    (h2 : x < (2 : ℚ) ^ (e + 1)) :
    (2 : ℚ) ^ e ≤ binary64 x ∧ binary64 x ≤ (2 : ℚ) ^ (e + 1) := by
  rw [binary64_of_binade x e hx h1 h2]
  have hp := two_zpow_pos (52 - e)
  have hq := two_zpow_pos (e - 52)
  have e1 : (2 : ℚ) ^ e * (2 : ℚ) ^ (52 - e) = ((2 ^ 52 : ℤ) : ℚ) := by
    rw [← zpow_add₀ (by norm_num : (2 : ℚ) ≠ 0)]
    norm_num
  have e2 : (2 : ℚ) ^ (e + 1) * (2 : ℚ) ^ (52 - e) = ((2 ^ 53 : ℤ) : ℚ) := by
    rw [← zpow_add₀ (by norm_num : (2 : ℚ) ≠ 0)]
    have : e + 1 + (52 - e) = 53 := by ring
    rw [this]
    norm_num
  have e3 : ((2 ^ 52 : ℤ) : ℚ) * (2 : ℚ) ^ (e - 52) = (2 : ℚ) ^ e := by
    rw [← e1, mul_assoc, ← zpow_add₀ (by norm_num : (2 : ℚ) ≠ 0)]
    have : 52 - e + (e - 52) = 0 := by ring
    rw [this]
    simp
  have e4 : ((2 ^ 53 : ℤ) : ℚ) * (2 : ℚ) ^ (e - 52) = (2 : ℚ) ^ (e + 1) := by
    rw [← e2, mul_assoc, ← zpow_add₀ (by norm_num : (2 : ℚ) ≠ 0)]
    have : 52 - e + (e - 52) = 0 := by ring
    rw [this]
    simp
  have l1 : (2 ^ 52 : ℤ) ≤ roundHalfEven (x * (2 : ℚ) ^ (52 - e)) := by
    apply roundHalfEven_ge_of_ge
    rw [← e1]
    exact mul_le_mul_of_nonneg_right h1 (le_of_lt hp)
  have l2 : roundHalfEven (x * (2 : ℚ) ^ (52 - e)) ≤ (2 ^ 53 : ℤ) := by
    apply roundHalfEven_le_of_le
    rw [← e2]
    exact mul_le_mul_of_nonneg_right (le_of_lt h2) (le_of_lt hp)
  constructor
  · rw [← e3]
    exact mul_le_mul_of_nonneg_right (by exact_mod_cast l1) (le_of_lt hq)
  · rw [← e4]
    exact mul_le_mul_of_nonneg_right (by exact_mod_cast l2) (le_of_lt hq)

theorem binary64_pos (x : ℚ) (hx : 0 < x) : 0 < binary64 x := by
  obtain ⟨h1, h2⟩ := binade_exists x hx
  exact lt_of_lt_of_le (two_zpow_pos _) (binary64_binade_bounds x _ hx h1 h2).1

theorem binary64_nonpos (x : ℚ) (hx : x ≤ 0) : binary64 x ≤ 0 := by
  unfold binary64
  split
  · exact le_refl 0
  · have hq := two_zpow_pos (Int.log 2 |x| - 52)
    have hp := two_zpow_pos (52 - Int.log 2 |x|)
    have : roundHalfEven (x * (2 : ℚ) ^ (52 - Int.log 2 |x|)) ≤ 0 := by
      apply roundHalfEven_le_of_le
      push_cast
      exact mul_nonpos_of_nonpos_of_nonneg hx (le_of_lt hp)
    have h' : ((roundHalfEven (x * (2 : ℚ) ^ (52 - Int.log 2 |x|)) : ℤ) : ℚ) ≤ 0 := by
      exact_mod_cast this
    exact mul_nonpos_of_nonpos_of_nonneg h' (le_of_lt hq)

/-- Rounding to binary64 is monotone from a positive argument on. -/
theorem binary64_mono_of_pos (x y : ℚ) (hx : 0 < x) (h : x ≤ y) : binary64 x ≤ binary64 y := by
  have hy : 0 < y := lt_of_lt_of_le hx h
  obtain ⟨x1, x2⟩ := binade_exists x hx
  obtain ⟨y1, y2⟩ := binade_exists y hy
  have hlog : Int.log 2 x ≤ Int.log 2 y := Int.log_mono_right hx h
  rcases lt_or_eq_of_le hlog with hlt | heq
  · have b1 := (binary64_binade_bounds x _ hx x1 x2).2
    have b2 := (binary64_binade_bounds y _ hy y1 y2).1
    have : (2 : ℚ) ^ (Int.log 2 x + 1) ≤ (2 : ℚ) ^ (Int.log 2 y) :=
      zpow_le_zpow_right₀ (by norm_num) (by omega)
    linarith
  · rw [binary64_of_binade x _ hx x1 x2, binary64_of_binade y _ hy y1 y2, heq]
    have hp := two_zpow_pos (52 - Int.log 2 y)
    have hq := two_zpow_pos (Int.log 2 y - 52)
    have := roundHalfEven_mono (x * (2 : ℚ) ^ (52 - Int.log 2 y)) (y * (2 : ℚ) ^ (52 - Int.log 2 y))
      (mul_le_mul_of_nonneg_right h (le_of_lt hp))
    exact mul_le_mul_of_nonneg_right (by exact_mod_cast this) (le_of_lt hq)

theorem binary64_mono (x y : ℚ) (hy : 0 ≤ y) (h : x ≤ y) : binary64 x ≤ binary64 y := by
  rcases lt_or_le 0 x with hx | hx
  · exact binary64_mono_of_pos x y hx h
  · have h1 := binary64_nonpos x hx
    rcases eq_or_lt_of_le hy with rfl | hy'
    · rw [binary64_zero]; exact h1
    · exact le_trans h1 (le_of_lt (binary64_pos y hy'))


theorem binary64_one : binary64 1 = 1 := by
  rw [binary64_eval 1 0 (2 ^ 52) (by norm_num) (by norm_num) (by norm_num) (by norm_num)
    (by norm_num)]
  norm_num

theorem binary64_half : binary64 (1 / 2) = 1 / 2 := by
  rw [binary64_eval (1 / 2) (-1) (2 ^ 52) (by norm_num) (by norm_num) (by norm_num)
    (by norm_num) (by norm_num)]
  norm_num

theorem binary64_three_quarters : binary64 (3 / 4) = 3 / 4 := by
  rw [binary64_eval (3 / 4) (-1) (3 * 2 ^ 51) (by norm_num) (by norm_num) (by norm_num)
    (by norm_num) (by norm_num)]
  norm_num

theorem binary64_fifty : binary64 50 = 50 := by
  rw [binary64_eval 50 5 (50 * 2 ^ 47) (by norm_num) (by norm_num) (by norm_num)
    (by norm_num) (by norm_num)]
  norm_num

theorem binary64_seventy_five : binary64 75 = 75 := by
  rw [binary64_eval 75 6 (75 * 2 ^ 46) (by norm_num) (by norm_num) (by norm_num)
    (by norm_num) (by norm_num)]
  norm_num

theorem binary64_hundred : binary64 100 = 100 := by
  rw [binary64_eval 100 6 (100 * 2 ^ 46) (by norm_num) (by norm_num) (by norm_num)
    (by norm_num) (by norm_num)]
  norm_num

theorem binary64_seven_tenths :
    binary64 (7 / 10) = 6305039478318694 / 9007199254740992 := by
  rw [binary64_eval (7 / 10) (-1) 6305039478318694 (by norm_num) (by norm_num) (by norm_num)
    (by norm_num) (by norm_num)]
  norm_num

theorem percentage64_100_70 : percentage64 100 70 = 70 := by
  have h : ((70 : Int) : ℚ) / ((100 : Int) : ℚ) = 7 / 10 := by norm_num
  simp only [percentage64, h, binary64_seven_tenths]
  rw [if_pos (by decide),
    binary64_eval _ 6 (70 * 2 ^ 46) (by norm_num) (by norm_num) (by norm_num)
    (by norm_num) (by norm_num)]
  norm_num

/-- At 57 attended classes of 100 the program returns `56.99999999999999`,
which is `8022036836253695 / 2 ^ 47`, and not the exact `57`. -/
theorem percentage64_100_57 :
    percentage64 100 57 = 8022036836253695 / 140737488355328 := by
  have h : ((57 : Int) : ℚ) / ((100 : Int) : ℚ) = 57 / 100 := by norm_num
  have h1 : binary64 (57 / 100) = 5134103575202365 / 9007199254740992 := by
    rw [binary64_eval (57 / 100) (-1) 5134103575202365 (by norm_num) (by norm_num)
      (by norm_num) (by norm_num) (by norm_num)]
    norm_num
  simp only [percentage64, h, h1]
  rw [if_pos (by decide),
    binary64_eval _ 5 8022036836253695 (by norm_num) (by norm_num) (by norm_num)
    (by norm_num) (by norm_num)]
  norm_num


/-- Below three quarters by more than half a unit in the last place, the
quotient rounds below three quarters and its product with 100 below 75. -/
theorem binary64_times_hundred_lt (x : ℚ) (h : x < 3 / 4 - 1 / 2 ^ 54) :
    binary64 (binary64 x * 100) < 75 := by
  rcases lt_or_le x (1 / 2) with hlt | hge
  · have h1 : binary64 x ≤ 1 / 2 := by
      have := binary64_mono x (1 / 2) (by norm_num) (le_of_lt hlt)
      rwa [binary64_half] at this
    have h2 : binary64 (binary64 x * 100) ≤ 50 := by
      have := binary64_mono (binary64 x * 100) 50 (by norm_num) (by linarith)
      rwa [binary64_fifty] at this
    linarith
  · have hx : 0 < x := by linarith
    have h1 : binary64 x ≤ 3 / 4 - 1 / 2 ^ 53 := by
      rw [binary64_of_binade x (-1) hx (by norm_num; linarith) (by norm_num; linarith)]
      have hr : roundHalfEven (x * (2 : ℚ) ^ (52 - (-1) : ℤ)) ≤ 3 * 2 ^ 51 - 1 := by
        apply roundHalfEven_le_of_lt
        norm_num
        norm_num at h
        linarith
      have hr' : ((roundHalfEven (x * (2 : ℚ) ^ (52 - (-1) : ℤ)) : ℤ) : ℚ)
          ≤ ((3 * 2 ^ 51 - 1 : ℤ) : ℚ) := by exact_mod_cast hr
      have hq := two_zpow_pos (-1 - 52)
      calc ((roundHalfEven (x * (2 : ℚ) ^ (52 - (-1) : ℤ)) : ℤ) : ℚ) * (2 : ℚ) ^ (-1 - 52 : ℤ)
          ≤ ((3 * 2 ^ 51 - 1 : ℤ) : ℚ) * (2 : ℚ) ^ (-1 - 52 : ℤ) :=
            mul_le_mul_of_nonneg_right hr' (le_of_lt hq)
        _ = 3 / 4 - 1 / 2 ^ 53 := by norm_num
    have h2 : binary64 (binary64 x * 100) ≤ binary64 ((3 / 4 - 1 / 2 ^ 53) * 100) :=
      binary64_mono _ _ (by norm_num) (by linarith)
    have h3 : binary64 ((3 / 4 - 1 / 2 ^ 53) * 100) = 75 - 1 / 2 ^ 46 := by
      rw [binary64_eval _ 6 (75 * 2 ^ 46 - 1) (by norm_num) (by norm_num) (by norm_num)
        (by norm_num) (by norm_num)]
      norm_num
    rw [h3] at h2
    have : (0 : ℚ) < 1 / 2 ^ 46 := by norm_num
    linarith

theorem binary64_times_hundred_ge (x : ℚ) (h : 3 / 4 ≤ x) :
    75 ≤ binary64 (binary64 x * 100) := by
  have h1 : 3 / 4 ≤ binary64 x := by
    have := binary64_mono_of_pos (3 / 4) x (by norm_num) h
    rwa [binary64_three_quarters] at this
  have := binary64_mono_of_pos 75 (binary64 x * 100) (by norm_num) (by linarith)
  rwa [binary64_seventy_five] at this

/-- For totals below `2 ^ 52` the test `percentage >= 75` on the binary64
percentage decides `3 * total ≤ 4 * attended`, as the exact quotient does. -/
theorem percentage64_ge_iff (total attended : Int) (hlt : total < 2 ^ 52) :
    percentage64 total attended ≥ 75 ↔ 0 < total ∧ 3 * total ≤ 4 * attended := by
  unfold percentage64
  by_cases ht : total > 0
  · have hq : (0 : ℚ) < (total : ℚ) := by exact_mod_cast ht
    simp only [ht, if_true, true_and, ge_iff_le]
    constructor
    · intro h
      by_contra hc
      have hc' : 4 * attended + 1 ≤ 3 * total := by omega
      have hcq : (4 * (attended : ℚ) + 1) ≤ 3 * (total : ℚ) := by exact_mod_cast hc'
      have hltq : (total : ℚ) < 2 ^ 52 := by exact_mod_cast hlt
      have hx : (attended : ℚ) / (total : ℚ) < 3 / 4 - 1 / 2 ^ 54 := by
        rw [div_lt_iff₀ hq]
        have : (1 / 2 ^ 54 : ℚ) * (total : ℚ) < 1 / 4 := by
          have : (1 / 2 ^ 54 : ℚ) * (total : ℚ) < 1 / 2 ^ 54 * 2 ^ 52 :=
            mul_lt_mul_of_pos_left hltq (by norm_num)
          have e : (1 / 2 ^ 54 : ℚ) * 2 ^ 52 = 1 / 4 := by norm_num
          linarith
        linarith
      have := binary64_times_hundred_lt _ hx
      linarith
    · intro h
      apply binary64_times_hundred_ge
      rw [le_div_iff₀ hq]
      have : (3 * total : ℚ) ≤ 4 * attended := by exact_mod_cast h
      linarith
  · simp only [ht, if_false, false_and, iff_false, ge_iff_le, not_le]
    norm_num

theorem percentage64_bounds (total attended : Int) (ha : 0 ≤ attended)
    (hle : attended ≤ total) :
    0 ≤ percentage64 total attended ∧ percentage64 total attended ≤ 100 := by
  unfold percentage64
  by_cases ht : total > 0
  · have hq : (0 : ℚ) < (total : ℚ) := by exact_mod_cast ht
    have haq : (0 : ℚ) ≤ (attended : ℚ) := by exact_mod_cast ha
    have hleq : (attended : ℚ) ≤ (total : ℚ) := by exact_mod_cast hle
    have hx0 : (0 : ℚ) ≤ (attended : ℚ) / (total : ℚ) := div_nonneg haq (le_of_lt hq)
    have hx1 : (attended : ℚ) / (total : ℚ) ≤ 1 := (div_le_one hq).2 hleq
    have h0 : 0 ≤ binary64 ((attended : ℚ) / (total : ℚ)) := by
      have := binary64_mono 0 _ hx0 hx0
      rwa [binary64_zero] at this
    have h1 : binary64 ((attended : ℚ) / (total : ℚ)) ≤ 1 := by
      have := binary64_mono _ 1 (by norm_num) hx1
      rwa [binary64_one] at this
    simp only [ht, if_true]
    constructor
    · have := binary64_mono 0 (binary64 ((attended : ℚ) / (total : ℚ)) * 100)
        (by linarith) (by linarith)
      rwa [binary64_zero] at this
    · have := binary64_mono (binary64 ((attended : ℚ) / (total : ℚ)) * 100) 100 (by norm_num)
        (by linarith)
      rwa [binary64_hundred] at this
  · simp [ht]

theorem percentage64_40_40 : percentage64 40 40 = 100 := by
  have h : ((40 : Int) : ℚ) / ((40 : Int) : ℚ) = 1 := by norm_num
  simp only [percentage64, h, binary64_one, one_mul, binary64_hundred]
  rw [if_pos (by decide)]

/-! ## Lemmas on the aggregation -/

theorem foldl_records (l : List Attendance) (acc : Int × Int) :
    l.foldl (fun acc att => (acc.1 + att.total_classes, acc.2 + att.attended_classes)) acc
      = (acc.1 + sumTotal l, acc.2 + sumAttended l) := by
  induction l generalizing acc with
  | nil => simp [sumTotal, sumAttended]
  | cons a l ih =>
    simp only [List.foldl_cons, ih, sumTotal, sumAttended, List.map_cons, List.sum_cons]
    ext <;> simp [add_assoc]

theorem sumTotal_append (l₁ l₂ : List Attendance) :
    sumTotal (l₁ ++ l₂) = sumTotal l₁ + sumTotal l₂ := by
  simp [sumTotal]

theorem sumAttended_append (l₁ l₂ : List Attendance) :
    sumAttended (l₁ ++ l₂) = sumAttended l₁ + sumAttended l₂ := by
  simp [sumAttended]

theorem foldl_subjects (subjects : List SubjectWithAttendance) (acc : Int × Int) :
    subjects.foldl
      (fun acc sub =>
        sub.attendance.foldl
          (fun acc att => (acc.1 + att.total_classes, acc.2 + att.attended_classes))
          acc)
      acc
      = (acc.1 + sumTotal (records subjects), acc.2 + sumAttended (records subjects)) := by
  induction subjects generalizing acc with
  | nil => simp [records, sumTotal, sumAttended]
  | cons sub rest ih =>
    rw [List.foldl_cons, ih, foldl_records]
    simp only [records, List.flatMap_cons, sumTotal_append, sumAttended_append, add_assoc]

theorem accumulate_eq (subjects : List SubjectWithAttendance) :
    accumulate subjects = (sumTotal (records subjects), sumAttended (records subjects)) := by
  simp [accumulate, foldl_subjects]

theorem percentage_ge_iff (total attended : Int) :
    percentage total attended ≥ 75 ↔ 0 < total ∧ 3 * total ≤ 4 * attended := by
  unfold percentage
  by_cases h : total > 0
  · have hq : (0 : ℚ) < (total : ℚ) := by exact_mod_cast h
    simp only [h, if_true, true_and, ge_iff_le]
    rw [div_mul_eq_mul_div, le_div_iff₀ hq]
    constructor
    · intro h1
      have : (3 * total : ℚ) ≤ 4 * attended := by linarith
      exact_mod_cast this
    · intro h1
      have : (3 * total : ℚ) ≤ 4 * attended := by exact_mod_cast h1
      linarith
  · simp only [h, if_false, false_and, iff_false, ge_iff_le, not_le]
    norm_num

theorem ceil_formula (total attended : Int) :
    Int.ceil ((((75 * total - 100 * attended : Int)) : ℚ) / 25) = 3 * total - 4 * attended := by
  have : (((75 * total - 100 * attended : Int)) : ℚ) / 25
      = ((3 * total - 4 * attended : Int) : ℚ) := by
    push_cast
    ring
  rw [this, Int.ceil_intCast]

theorem needed_eq (total attended : Int) :
    needed total attended
      = if 0 < total ∧ 3 * total ≤ 4 * attended then 0 else 3 * total - 4 * attended := by
  unfold needed
  by_cases h : 0 < total ∧ 3 * total ≤ 4 * attended
  · rw [if_pos ((percentage_ge_iff total attended).2 h), if_pos h]
  · rw [if_neg (fun hp => h ((percentage_ge_iff total attended).1 hp)), if_neg h, ceil_formula]


theorem card_totalClasses (sub : SubjectWithAttendance) :
    (card sub).totalClasses = sumTotal sub.attendance := by
  have h : ∀ (l : List Attendance) (acc : Int),
      l.foldl (fun sum att => sum + att.total_classes) acc = acc + sumTotal l := by
    intro l
    induction l with
    | nil => intro acc; simp [sumTotal]
    | cons a l ih => intro acc; simp [ih, sumTotal, add_assoc]
  simp [card, h]

theorem card_attendedClasses (sub : SubjectWithAttendance) :
    (card sub).attendedClasses = sumAttended sub.attendance := by
  have h : ∀ (l : List Attendance) (acc : Int),
      l.foldl (fun sum att => sum + att.attended_classes) acc = acc + sumAttended l := by
    intro l
    induction l with
    | nil => intro acc; simp [sumAttended]
    | cons a l ih => intro acc; simp [ih, sumAttended, add_assoc]
  simp [card, h]

theorem report_total (subjects : List SubjectWithAttendance) :
    (report subjects).total = sumTotal (records subjects) := by
  simp [report, accumulate_eq]

theorem report_attended (subjects : List SubjectWithAttendance) :
    (report subjects).attended = sumAttended (records subjects) := by
  simp [report, accumulate_eq]

theorem report_percentage (subjects : List SubjectWithAttendance) :
    (report subjects).percentage
      = percentage64 (sumTotal (records subjects)) (sumAttended (records subjects)) := by
  simp [report, accumulate_eq]

theorem report_needed (subjects : List SubjectWithAttendance) :
    (report subjects).needed
      = needed (sumTotal (records subjects)) (sumAttended (records subjects)) := by
  simp [report, accumulate_eq]

/-- With a positive total, `needed` meets the words of the spec. -/
theorem leastNeeded_needed (total attended : Int) (ht : 0 < total) :
    LeastNeeded total attended (needed total attended) := by
  have hq : (0 : ℚ) < (total : ℚ) := by exact_mod_cast ht
  have key : (attended : ℚ) / (total : ℚ) ≥ 3 / 4 ↔ 3 * total ≤ 4 * attended := by
    rw [ge_iff_le, div_le_div_iff₀ (by norm_num) hq]
    constructor
    · intro h
      have : (3 * total : ℚ) ≤ 4 * attended := by linarith
      exact_mod_cast this
    · intro h
      have : (3 * total : ℚ) ≤ 4 * attended := by exact_mod_cast h
      linarith
  refine ⟨fun h => ?_, fun h => ?_⟩
  · rw [needed_eq, if_pos ⟨ht, key.1 h⟩]
  · have hlt : ¬ 3 * total ≤ 4 * attended := fun h' => absurd (key.2 h') (not_le.2 h)
    rw [needed_eq, if_neg (fun h' => hlt h'.2)]
    have hpos : 0 < 3 * total - 4 * attended := by omega
    refine ⟨le_of_lt hpos, ?_, ?_⟩
    · have hden : (0 : ℚ) < (total : ℚ) + ((3 * total - 4 * attended : Int) : ℚ) := by
        have : (0 : ℚ) < ((3 * total - 4 * attended : Int) : ℚ) := by exact_mod_cast hpos
        linarith
      rw [ge_iff_le, div_le_div_iff₀ (by norm_num) hden]
      push_cast
      linarith
    · intro m hm hge
      have hmq : (0 : ℚ) ≤ (m : ℚ) := by exact_mod_cast hm
      have hden : (0 : ℚ) < (total : ℚ) + (m : ℚ) := by linarith
      rw [ge_iff_le, div_le_div_iff₀ (by norm_num) hden] at hge
      have : ((3 * total - 4 * attended : Int) : ℚ) ≤ (m : ℚ) := by
        push_cast
        linarith
      exact_mod_cast this

theorem sumAttended_nonneg (l : List Attendance)
    (h : ∀ att ∈ l, 0 ≤ att.attended_classes) : 0 ≤ sumAttended l := by
  induction l with
  | nil => simp [sumAttended]
  | cons a l ih =>
    have h1 := h a (List.mem_cons_self a l)
    have h2 := ih (fun att hatt => h att (List.mem_cons_of_mem a hatt))
    simp only [sumAttended, List.map_cons, List.sum_cons] at h2 ⊢
    omega

theorem sumAttended_le_sumTotal (l : List Attendance)
    (h : ∀ att ∈ l, att.attended_classes ≤ att.total_classes) :
    sumAttended l ≤ sumTotal l := by
  induction l with
  | nil => simp [sumAttended, sumTotal]
  | cons a l ih =>
    have h1 := h a (List.mem_cons_self a l)
    have h2 := ih (fun att hatt => h att (List.mem_cons_of_mem a hatt))
    simp only [sumAttended, sumTotal, List.map_cons, List.sum_cons] at h2 ⊢
    omega

/-! ## The report (C1, C2, C3) -/

/-- C1: for every list of subjects, the report has `total` the sum of
`total_classes` and `attended` the sum of `attended_classes` over all records,
and `percentage = (attended / total) * 100` when `total > 0` and `0`
otherwise, the division and the multiplication rounded to binary64 as the
program computes them; for totals below `2 ^ 52`, `needed = 0` when that
percentage is at least 75 and `⌈(75 total - 100 attended) / 25⌉` otherwise;
`GET /report` answers 200 with the report of the caller's subjects; totals 100
and 70 give 70 and 20, totals 40 and 40 give 100 and 0. -/
theorem report_aggregates (subjects : List SubjectWithAttendance) (userId : Int)
    (req : Request) (s : Store) :
    (report subjects).total = sumTotal (records subjects) ∧
    (report subjects).attended = sumAttended (records subjects) ∧
    (report subjects).percentage
      = (if sumTotal (records subjects) > 0 then
          binary64
            (binary64
              ((sumAttended (records subjects) : ℚ) / (sumTotal (records subjects) : ℚ)) * 100)
        else 0) ∧
    (sumTotal (records subjects) < 2 ^ 52 →
      (report subjects).needed
        = if (report subjects).percentage ≥ 75 then 0
          else
            Int.ceil ((((75 * sumTotal (records subjects)
              - 100 * sumAttended (records subjects) : Int)) : ℚ) / 25)) ∧
    getReport prisma userId req s
      = (⟨200, Payload.report (report ((s.owned userId).map s.withAttendance))⟩, s) ∧
    (sumTotal (records subjects) = 100 → sumAttended (records subjects) = 70 →
      (report subjects).percentage = 70 ∧ (report subjects).needed = 20) ∧
    (sumTotal (records subjects) = 40 → sumAttended (records subjects) = 40 →
      (report subjects).percentage = 100 ∧ (report subjects).needed = 0) := by
  refine ⟨report_total subjects, report_attended subjects, ?_, ?_, rfl, ?_, ?_⟩
  · rw [report_percentage]
    rfl
  · intro hlt
    rw [report_needed, report_percentage]
    unfold needed
    by_cases h : 0 < sumTotal (records subjects) ∧
        3 * sumTotal (records subjects) ≤ 4 * sumAttended (records subjects)
    · rw [if_pos ((percentage_ge_iff _ _).2 h), if_pos ((percentage64_ge_iff _ _ hlt).2 h)]
    · rw [if_neg (fun hp => h ((percentage_ge_iff _ _).1 hp)),
        if_neg (fun hp => h ((percentage64_ge_iff _ _ hlt).1 hp))]
  · intro h1 h2
    rw [report_percentage, report_needed, needed_eq, h1, h2]
    exact ⟨percentage64_100_70, by norm_num⟩
  · intro h1 h2
    rw [report_percentage, report_needed, needed_eq, h1, h2]
    exact ⟨percentage64_40_40, by norm_num⟩

/-- The two scenarios of C1 on the sample subjects. -/
theorem report_aggregates_witness :
    ((report [mathSubject]).percentage = 70 ∧ (report [mathSubject]).needed = 20) ∧
    ((report [physicsSubject]).percentage = 100 ∧ (report [physicsSubject]).needed = 0) :=
  ⟨(report_aggregates [mathSubject] 1 ⟨none, [], ""⟩ ⟨[], [], [], 1, 1, 1⟩).2.2.2.2.2.1
      (by decide) (by decide),
   (report_aggregates [physicsSubject] 1 ⟨none, [], ""⟩ ⟨[], [], [], 1, 1, 1⟩).2.2.2.2.2.2
      (by decide) (by decide)⟩

/-- C2: for `total > 0` and `0 ≤ attended ≤ total`, the `needed` of the report
and of the dashboard card is `0` if `attended / total ≥ 0.75` and otherwise the
least non-negative integer `n` with `(attended + n) / (total + n) ≥ 0.75`. -/
theorem needed_is_least (total attended : Int) (ht : 0 < total) (_h0 : 0 ≤ attended)
    (_hle : attended ≤ total) :
    LeastNeeded total attended (needed total attended) ∧
    (∀ subjects : List SubjectWithAttendance,
      (report subjects).total = total → (report subjects).attended = attended →
      LeastNeeded total attended (report subjects).needed) ∧
    (∀ sub : SubjectWithAttendance,
      (card sub).totalClasses = total → (card sub).attendedClasses = attended →
      LeastNeeded total attended (card sub).needed) := by
  refine ⟨leastNeeded_needed total attended ht, ?_, ?_⟩
  · intro subjects h1 h2
    have : (report subjects).needed = needed total attended := by
      rw [← h1, ← h2]; rfl
    rw [this]
    exact leastNeeded_needed total attended ht
  · intro sub h1 h2
    have : (card sub).needed = needed total attended := by
      rw [← h1, ← h2]; rfl
    rw [this]
    exact leastNeeded_needed total attended ht

/-- C2 at 100 classes with 70 attended, for the report and for the card. -/
theorem needed_is_least_witness :
    LeastNeeded 100 70 (report [mathSubject]).needed ∧
    LeastNeeded 100 70 (card mathSubject).needed :=
  ⟨(needed_is_least 100 70 (by decide) (by decide) (by decide)).2.1 [mathSubject]
      (by rw [report_total]; decide) (by rw [report_attended]; decide),
   (needed_is_least 100 70 (by decide) (by decide) (by decide)).2.2 mathSubject
      (by rw [card_totalClasses]; decide) (by rw [card_attendedClasses]; decide)⟩

/-- C3 as stated fails: the records of `straySubject` have `total_classes`
summing to 0, and the report's `needed` is `-20`. -/
theorem report_zero_total_counterexample :
    sumTotal (records [straySubject]) = 0 ∧ (report [straySubject]).percentage = 0 ∧
      (report [straySubject]).needed = -20 := by
  refine ⟨by decide, ?_, ?_⟩
  · rw [report_percentage]
    simp [percentage64, show sumTotal (records [straySubject]) = 0 by decide]
  · rw [report_needed, needed_eq, show sumTotal (records [straySubject]) = 0 by decide,
      show sumAttended (records [straySubject]) = 5 by decide]
    norm_num

/-- C3, amended: when the `total_classes` sum to 0 the report's percentage is
0, and its `needed` is 0 when the `attended_classes` sum to 0 as well, which
they do whenever every record has `0 ≤ attended_classes ≤ total_classes`. -/
theorem report_zero_total (subjects : List SubjectWithAttendance)
    (h : sumTotal (records subjects) = 0) :
    (report subjects).percentage = 0 ∧
    (sumAttended (records subjects) = 0 → (report subjects).needed = 0) ∧
    ((∀ att ∈ records subjects,
        0 ≤ att.attended_classes ∧ att.attended_classes ≤ att.total_classes) →
      (report subjects).needed = 0) := by
  have hn : sumAttended (records subjects) = 0 → (report subjects).needed = 0 := by
    intro h2
    rw [report_needed, needed_eq, h, h2]
    norm_num
  refine ⟨?_, hn, ?_⟩
  · rw [report_percentage, h]
    simp [percentage64]
  · intro hall
    apply hn
    have h1 := sumAttended_nonneg (records subjects) (fun att hatt => (hall att hatt).1)
    have h2 := sumAttended_le_sumTotal (records subjects) (fun att hatt => (hall att hatt).2)
    omega

/-- C3 on a freshly created subject: total 0, attended 0. -/
theorem report_zero_total_witness :
    (report [freshSubject]).percentage = 0 ∧ (report [freshSubject]).needed = 0 :=
  ⟨(report_zero_total [freshSubject] (by decide)).1,
   (report_zero_total [freshSubject] (by decide)).2.1 (by decide)⟩

/-! ## Lemmas on the store -/

namespace Store

theorem hasKey_overwrite (sid : Int) (ty : String) (t a : Int) (att : Attendance) :
    hasKey sid ty (overwrite sid ty t a att) = hasKey sid ty att := by
  unfold overwrite
  split <;> simp_all [hasKey]

theorem overwrite_of_hasKey (sid : Int) (ty : String) (t a : Int) (att : Attendance)
    (h : hasKey sid ty att = true) :
    overwrite sid ty t a att = { att with total_classes := t, attended_classes := a } := by
  simp [overwrite, h]

theorem overwrite_of_not_hasKey (sid : Int) (ty : String) (t a : Int) (att : Attendance)
    (h : hasKey sid ty att = false) : overwrite sid ty t a att = att := by
  simp [overwrite, h]

theorem overwrite_overwrite (sid : Int) (ty : String) (t a : Int) (att : Attendance) :
    overwrite sid ty t a (overwrite sid ty t a att) = overwrite sid ty t a att := by
  cases h : hasKey sid ty att
  · rw [overwrite_of_not_hasKey _ _ _ _ _ h, overwrite_of_not_hasKey _ _ _ _ _ h]
  · rw [overwrite_of_hasKey _ _ _ _ (overwrite sid ty t a att) (by rw [hasKey_overwrite]; exact h),
      overwrite_of_hasKey _ _ _ _ att h]

theorem key_overwrite (sid : Int) (ty : String) (t a : Int) (att : Attendance) :
    ((overwrite sid ty t a att).subjectId, (overwrite sid ty t a att).type)
      = (att.subjectId, att.type) := by
  unfold overwrite
  split <;> rfl

theorem find?_map_overwrite (sid : Int) (ty : String) (t a : Int) (l : List Attendance) :
    (l.map (overwrite sid ty t a)).find? (hasKey sid ty)
      = (l.find? (hasKey sid ty)).map (overwrite sid ty t a) := by
  induction l with
  | nil => rfl
  | cons x l ih =>
    simp only [List.map_cons, List.find?_cons, hasKey_overwrite]
    cases hasKey sid ty x
    · simpa using ih
    · simp

theorem map_overwrite_of_none (sid : Int) (ty : String) (t a : Int) (l : List Attendance)
    (h : l.find? (hasKey sid ty) = none) : l.map (overwrite sid ty t a) = l := by
  induction l with
  | nil => rfl
  | cons x l ih =>
    simp only [List.find?_cons] at h
    cases hx : hasKey sid ty x
    · simp only [hx] at h
      simp [overwrite_of_not_hasKey _ _ _ _ _ hx, ih h]
    · simp [hx] at h

theorem find?_append_new (sid : Int) (ty : String) (l : List Attendance) (att : Attendance)
    (h : l.find? (hasKey sid ty) = none) (hk : hasKey sid ty att = true) :
    (l ++ [att]).find? (hasKey sid ty) = some att := by
  simp [List.find?_append, h, hk]

/-- An upsert that succeeded, run again with the same arguments on the store
it produced, returns the same row and leaves that store as it is. -/
theorem attendanceUpsert_idem (sid : Int) (ty : String) (t a : Int) (s s1 : Store)
    (updated : Attendance) (h : attendanceUpsert sid ty t a s = Except.ok (updated, s1)) :
    attendanceUpsert sid ty t a s1 = Except.ok (updated, s1) := by
  unfold attendanceUpsert at h
  split at h
  · rename_i att hf
    simp only [Except.ok.injEq, Prod.mk.injEq] at h
    obtain ⟨h1, h2⟩ := h
    subst h1 h2
    unfold attendanceUpsert
    simp only [find?_map_overwrite, hf, Option.map_some', overwrite_overwrite, List.map_map]
    congr 2
    have : (overwrite sid ty t a ∘ overwrite sid ty t a) = overwrite sid ty t a := by
      funext x; exact overwrite_overwrite sid ty t a x
    rw [this]
  · rename_i hf
    split at h
    · simp only [Except.ok.injEq, Prod.mk.injEq] at h
      obtain ⟨h1, h2⟩ := h
      subst h1 h2
      have hk : hasKey sid ty ⟨s.attendanceSeq, sid, ty, t, a⟩ = true := by simp [hasKey]
      unfold attendanceUpsert
      simp only [find?_append_new sid ty s.attendance _ hf hk, List.map_append,
        map_overwrite_of_none sid ty t a s.attendance hf, List.map_cons, List.map_nil,
        overwrite_of_hasKey _ _ _ _ _ hk]
    · cases h

theorem hasKey_iff (sid : Int) (ty : String) (att : Attendance) :
    hasKey sid ty att = true ↔ (att.subjectId, att.type) = (sid, ty) := by
  simp [hasKey]

theorem filter_hasKey_of_not_mem (sid : Int) (ty : String) (l : List Attendance)
    (h : (sid, ty) ∉ l.map (fun att => (att.subjectId, att.type))) :
    l.filter (hasKey sid ty) = [] := by
  rw [List.filter_eq_nil_iff]
  intro x hx hk
  exact h (List.mem_map.2 ⟨x, hx, (hasKey_iff sid ty x).1 hk⟩)

theorem filter_hasKey_unique (sid : Int) (ty : String) (l : List Attendance) (x : Attendance)
    (hn : (l.map (fun att => (att.subjectId, att.type))).Nodup) (hx : x ∈ l)
    (hk : hasKey sid ty x = true) : l.filter (hasKey sid ty) = [x] := by
  induction l with
  | nil => cases hx
  | cons y l ih =>
    simp only [List.map_cons, List.nodup_cons] at hn
    obtain ⟨hy, hn'⟩ := hn
    cases hky : hasKey sid ty y
    · rw [List.filter_cons_of_neg (by simp [hky])]
      rcases List.mem_cons.1 hx with rfl | hx'
      · rw [hk] at hky; cases hky
      · exact ih hn' hx'
    · rw [List.filter_cons_of_pos hky]
      have hkey : (y.subjectId, y.type) = (sid, ty) := (hasKey_iff sid ty y).1 hky
      rw [hkey] at hy
      rw [filter_hasKey_of_not_mem sid ty l hy]
      rcases List.mem_cons.1 hx with rfl | hx'
      · rfl
      · exact absurd (List.mem_map.2 ⟨x, hx', (hasKey_iff sid ty x).1 hk⟩) hy

theorem map_key_overwrite (sid : Int) (ty : String) (t a : Int) (l : List Attendance) :
    (l.map (overwrite sid ty t a)).map (fun att => (att.subjectId, att.type))
      = l.map (fun att => (att.subjectId, att.type)) := by
  rw [List.map_map]
  apply List.map_congr_left
  intro x _
  unfold overwrite
  simp only [Function.comp]
  split <;> rfl

theorem not_mem_keys_of_find?_none (sid : Int) (ty : String) (l : List Attendance)
    (h : l.find? (hasKey sid ty) = none) :
    (sid, ty) ∉ l.map (fun att => (att.subjectId, att.type)) := by
  intro hm
  obtain ⟨x, hx, hxk⟩ := List.mem_map.1 hm
  have := List.find?_eq_none.1 h x hx
  exact this ((hasKey_iff sid ty x).2 hxk)

/-- What a successful upsert leaves behind: the returned row has the key and
the counters of the call and is stored, users and subjects are untouched, the
uniqueness of `(subjectId, type)` is kept, and under it the returned row is the
only one with the key. -/
theorem attendanceUpsert_ok (sid : Int) (ty : String) (t a : Int) (s s1 : Store)
    (updated : Attendance) (h : attendanceUpsert sid ty t a s = Except.ok (updated, s1)) :
    hasKey sid ty updated = true ∧ updated.total_classes = t ∧ updated.attended_classes = a ∧
    updated ∈ s1.attendance ∧ s1.subjects = s.subjects ∧ s1.users = s.users ∧
    ((s.attendance.map (fun att => (att.subjectId, att.type))).Nodup →
      (s1.attendance.map (fun att => (att.subjectId, att.type))).Nodup ∧
      s1.attendance.filter (hasKey sid ty) = [updated]) := by
  unfold attendanceUpsert at h
  split at h
  · rename_i att hf
    simp only [Except.ok.injEq, Prod.mk.injEq] at h
    obtain ⟨h1, h2⟩ := h
    subst h1 h2
    have hk : hasKey sid ty att = true := by
      have := List.find?_some hf
      simpa using this
    have hmem : overwrite sid ty t a att ∈ s.attendance.map (overwrite sid ty t a) :=
      List.mem_map_of_mem _ (List.mem_of_find?_eq_some hf)
    have hk' : hasKey sid ty (overwrite sid ty t a att) = true := by
      rw [hasKey_overwrite]; exact hk
    refine ⟨hk', ?_, ?_, hmem, rfl, rfl, ?_⟩
    · rw [overwrite_of_hasKey _ _ _ _ _ hk]
    · rw [overwrite_of_hasKey _ _ _ _ _ hk]
    · intro hn
      have hn' : ((s.attendance.map (overwrite sid ty t a)).map
          (fun att => (att.subjectId, att.type))).Nodup := by
        rw [map_key_overwrite]; exact hn
      exact ⟨hn', filter_hasKey_unique sid ty _ _ hn' hmem hk'⟩
  · rename_i hf
    split at h
    · simp only [Except.ok.injEq, Prod.mk.injEq] at h
      obtain ⟨h1, h2⟩ := h
      subst h1 h2
      have hk : hasKey sid ty ⟨s.attendanceSeq, sid, ty, t, a⟩ = true := by simp [hasKey]
      refine ⟨hk, rfl, rfl, by simp, rfl, rfl, ?_⟩
      intro hn
      have hnot := not_mem_keys_of_find?_none sid ty s.attendance hf
      have hn' : ((s.attendance ++ [(⟨s.attendanceSeq, sid, ty, t, a⟩ : Attendance)]).map
          (fun att => (att.subjectId, att.type))).Nodup := by
        rw [List.map_append, List.nodup_append]
        refine ⟨hn, by simp, ?_⟩
        intro k hk1 hk2
        simp only [List.map_cons, List.map_nil, List.mem_singleton] at hk2
        subst hk2
        exact hnot hk1
      exact ⟨hn', filter_hasKey_unique sid ty _ _ hn' (by simp) hk⟩
    · cases h

/-- An upsert on an existing subject succeeds, whatever the counters. -/
theorem attendanceUpsert_succeeds (sid : Int) (ty : String) (t a : Int) (s : Store)
    (h : ∃ sub ∈ s.subjects, sub.id = sid) :
    ∃ updated s1, attendanceUpsert sid ty t a s = Except.ok (updated, s1) := by
  unfold attendanceUpsert
  split
  · exact ⟨_, _, rfl⟩
  · have hany : s.subjects.any (fun sub => sub.id == sid) = true := by
      obtain ⟨sub, hsub, hid⟩ := h
      exact List.any_eq_true.2 ⟨sub, hsub, by simp [hid]⟩
    simp only [hany, if_true]
    exact ⟨_, _, rfl⟩

end Store

/-! ## Lemmas on the routes -/

theorem withAuth_ok (c : Crypto) (handler : Int → Request → Store → Response × Store)
    (req : Request) (s : Store) (userId : Int) (h : authMiddleware c req = Except.ok userId) :
    withAuth c handler req s = handler userId req s := by
  simp [withAuth, h]

theorem withAuth_error (c : Crypto) (handler : Int → Request → Store → Response × Store)
    (req : Request) (s : Store) (res : Response) (h : authMiddleware c req = Except.error res) :
    withAuth c handler req s = (res, s) := by
  simp [withAuth, h]

theorem authMiddleware_status (c : Crypto) (req : Request) (res : Response)
    (h : authMiddleware c req = Except.error res) : res.status = 401 := by
  unfold authMiddleware at h
  split at h
  · cases h; rfl
  · split at h
    · cases h; rfl
    · split at h
      · cases h
      · cases h; rfl

theorem authMiddleware_rejects (c : Crypto) (req : Request)
    (h : bearerToken req = none ∨ bearerToken req = some "" ∨
      ∃ t, bearerToken req = some t ∧ c.verify t = none) :
    ∃ res, authMiddleware c req = Except.error res := by
  unfold authMiddleware
  rcases h with h | h | ⟨t, h, hv⟩
  · simp [h]
  · simp [h]
  · simp only [h, hv]
    split <;> exact ⟨_, rfl⟩

theorem authMiddleware_accepts (c : Crypto) (req : Request) (t : String) (userId : Int)
    (h : bearerToken req = some t) (ht : t ≠ "") (hv : c.verify t = some userId) :
    authMiddleware c req = Except.ok userId := by
  simp [authMiddleware, h, ht, hv]

theorem postAttendance_missing (db : Prisma) (userId : Int) (req : Request) (s : Store)
    (h : (!(req.field "subjectId").truthy || !(req.field "type").truthy ||
      (req.field "total_classes").looseNull || (req.field "attended_classes").looseNull) = true) :
    postAttendance db userId req s = (⟨400, Payload.error "All fields are required."⟩, s) := by
  unfold postAttendance
  simp only [h, if_true]

theorem postAttendance_present (db : Prisma) (userId : Int) (req : Request) (s : Store)
    (h : (!(req.field "subjectId").truthy || !(req.field "type").truthy ||
      (req.field "total_classes").looseNull || (req.field "attended_classes").looseNull) = false) :
    (postAttendance db userId req s).1.status = 200 ∨
      (postAttendance db userId req s).1.status = 500 := by
  unfold postAttendance
  simp only [h, Bool.false_eq_true, if_false]
  split
  · exact Or.inl rfl
  · exact Or.inr rfl

theorem postAttendance_ok (db : Prisma) (userId : Int) (req : Request) (s : Store)
    (sid : Int) (ty : String) (total attended : Int)
    (h1 : req.field "subjectId" = JsVal.num sid) (h1' : sid ≠ 0)
    (h2 : req.field "type" = JsVal.str ty) (h2' : ty ≠ "")
    (h3 : req.field "total_classes" = JsVal.num total)
    (h4 : req.field "attended_classes" = JsVal.num attended)
    (updated : Attendance) (s1 : Store)
    (h : db.attendanceUpsert sid ty total attended s = Except.ok (updated, s1)) :
    postAttendance db userId req s = (⟨200, Payload.attendance updated⟩, s1) := by
  unfold postAttendance
  simp [h1, h2, h3, h4, JsVal.truthy, JsVal.looseNull, h1', h2', asInt, asString, h]

theorem postAttendance_error (db : Prisma) (userId : Int) (req : Request) (s : Store)
    (sid : Int) (ty : String) (total attended : Int)
    (h1 : req.field "subjectId" = JsVal.num sid) (h1' : sid ≠ 0)
    (h2 : req.field "type" = JsVal.str ty) (h2' : ty ≠ "")
    (h3 : req.field "total_classes" = JsVal.num total)
    (h4 : req.field "attended_classes" = JsVal.num attended)
    (e : JsError)
    (h : db.attendanceUpsert sid ty total attended s = Except.error e) :
    postAttendance db userId req s
      = (⟨500, Payload.error "Failed to update attendance."⟩, s) := by
  unfold postAttendance
  simp [h1, h2, h3, h4, JsVal.truthy, JsVal.looseNull, h1', h2', asInt, asString, h]

theorem asInt_ok (v : JsVal) (n : Int) (h : asInt v = Except.ok n) : v = JsVal.num n := by
  cases v <;> simp [asInt] at h
  rw [h]

theorem asString_ok (v : JsVal) (x : String) (h : asString v = Except.ok x) :
    v = JsVal.str x := by
  cases v <;> simp [asString] at h
  rw [h]

/-- A request that `POST /attendance` answers with 200 has an integer
`subjectId`, a string `type` and integer counters, and the upsert succeeded. -/
theorem postAttendance_accepted (db : Prisma) (userId : Int) (req : Request) (s : Store)
    (h : (postAttendance db userId req s).1.status = 200) :
    ∃ (sid : Int) (ty : String) (total attended : Int) (updated : Attendance) (s1 : Store),
      req.field "subjectId" = JsVal.num sid ∧ req.field "type" = JsVal.str ty ∧
      req.field "total_classes" = JsVal.num total ∧
      req.field "attended_classes" = JsVal.num attended ∧
      db.attendanceUpsert sid ty total attended s = Except.ok (updated, s1) ∧
      postAttendance db userId req s = (⟨200, Payload.attendance updated⟩, s1) := by
  unfold postAttendance at h ⊢
  by_cases hm : (!(req.field "subjectId").truthy || !(req.field "type").truthy ||
      (req.field "total_classes").looseNull || (req.field "attended_classes").looseNull) = true
  · simp [hm] at h
  · have hm' := eq_false_of_ne_true hm
    simp only [hm', Bool.false_eq_true, if_false] at h ⊢
    split at h
    · rename_i updated s1 heq
      split at heq
      · rename_i sid ty total attended e1 e2 e3 e4
        refine ⟨sid, ty, total, attended, updated, s1, asInt_ok _ _ e1, asString_ok _ _ e2,
          asInt_ok _ _ e3, asInt_ok _ _ e4, heq, ?_⟩
        simp only [e1, e2, e3, e4, heq]
      · cases heq
    · simp at h

theorem report_eval (subjects : List SubjectWithAttendance) (t a : Int) (p : ℚ) (n : Int)
    (h1 : sumTotal (records subjects) = t) (h2 : sumAttended (records subjects) = a)
    (hp : percentage64 t a = p) (hn : needed t a = n) : report subjects = ⟨t, a, p, n⟩ := by
  simp only [report, accumulate_eq, h1, h2, hp, hn]

namespace Store

theorem mem_owned (s : Store) (userId : Int) (sub : Subject) :
    sub ∈ s.owned userId ↔ sub ∈ s.subjects ∧ sub.userId = userId := by
  simp [owned]

theorem mem_children (s : Store) (subjectId : Int) (att : Attendance) :
    att ∈ s.children subjectId ↔ att ∈ s.attendance ∧ att.subjectId = subjectId := by
  simp [children]

/-- The subjects a `findMany` returns depend only on the caller's subjects and
on the rows of those subjects. -/
theorem listing_congr (s s' : Store) (userId : Int) (h1 : s'.owned userId = s.owned userId)
    (h2 : ∀ sub ∈ s.owned userId, s'.children sub.id = s.children sub.id) :
    (s'.owned userId).map s'.withAttendance = (s.owned userId).map s.withAttendance := by
  rw [h1]
  apply List.map_congr_left
  intro sub hsub
  simp only [withAttendance, h2 sub hsub]

/-- In a well-formed store no attendance row references the next subject id. -/
theorem children_subjectSeq (s : Store) (h : s.WF) : s.children s.subjectSeq = [] := by
  unfold children
  rw [List.filter_eq_nil_iff]
  intro att hatt hk
  obtain ⟨sub, hsub, hid⟩ := h.parent att hatt
  have hlt := h.subjectIds sub hsub
  simp only [beq_iff_eq] at hk
  omega

/-- The creation of a subject with its two seeded rows in a well-formed store
whose users include the owner. -/
theorem subjectCreate_seeded (s : Store) (h : s.WF) (name : String) (userId : Int)
    (hu : ∃ u ∈ s.users, u.id = userId) :
    subjectCreate name userId [("class", 0, 0), ("lab", 0, 0)] s =
      Except.ok
        (⟨s.subjectSeq, name, userId,
            [⟨s.attendanceSeq, s.subjectSeq, "class", 0, 0⟩,
              ⟨s.attendanceSeq + 1, s.subjectSeq, "lab", 0, 0⟩]⟩,
          { s with
            subjects := s.subjects ++ [⟨s.subjectSeq, name, userId⟩]
            attendance := s.attendance ++
              [⟨s.attendanceSeq, s.subjectSeq, "class", 0, 0⟩,
                ⟨s.attendanceSeq + 1, s.subjectSeq, "lab", 0, 0⟩]
            subjectSeq := s.subjectSeq + 1
            attendanceSeq := s.attendanceSeq + 2 }) := by
  have hany : s.users.any (fun u => u.id == userId) = true := by
    obtain ⟨u, hu1, hu2⟩ := hu
    exact List.any_eq_true.2 ⟨u, hu1, by simp [hu2]⟩
  have hnd : (([("class", 0, 0), ("lab", 0, 0)] : List (String × Int × Int)).map
      (fun r => r.1)).Nodup := by decide
  have hc := children_subjectSeq s h
  unfold children at hc
  unfold subjectCreate
  simp only [hany, Bool.not_true, Bool.false_eq_true, if_false, hnd, decide_True]
  simp [withAttendance, children, newRows, List.filter_append, hc]

end Store

theorem postSubjects_missing (db : Prisma) (userId : Int) (req : Request) (s : Store)
    (h : (req.field "subject_name").truthy = false) :
    postSubjects db userId req s = (⟨400, Payload.error "Subject name is required."⟩, s) := by
  simp [postSubjects, h]

theorem postSubjects_ok (db : Prisma) (userId : Int) (req : Request) (s : Store)
    (name : String) (h1 : req.field "subject_name" = JsVal.str name) (h2 : name ≠ "")
    (subject : SubjectWithAttendance) (s1 : Store)
    (h : db.subjectCreate name userId [("class", 0, 0), ("lab", 0, 0)] s
      = Except.ok (subject, s1)) :
    postSubjects db userId req s = (⟨201, Payload.subject subject⟩, s1) := by
  simp [postSubjects, h1, JsVal.truthy, h2, asString, -Prod.mk_zero_zero, h]

theorem postSubjects_error (db : Prisma) (userId : Int) (req : Request) (s : Store)
    (name : String) (h1 : req.field "subject_name" = JsVal.str name) (h2 : name ≠ "")
    (e : JsError)
    (h : db.subjectCreate name userId [("class", 0, 0), ("lab", 0, 0)] s = Except.error e) :
    postSubjects db userId req s = (⟨500, Payload.error "Failed to add subject."⟩, s) := by
  simp [postSubjects, h1, JsVal.truthy, h2, asString, -Prod.mk_zero_zero, h]

theorem getSubjects_error (db : Prisma) (userId : Int) (req : Request) (s : Store) (e : JsError)
    (h : db.subjectFindMany userId s = Except.error e) :
    getSubjects db userId req s = (⟨500, Payload.error "Failed to fetch subjects."⟩, s) := by
  simp [getSubjects, h]

theorem getReport_error (db : Prisma) (userId : Int) (req : Request) (s : Store) (e : JsError)
    (h : db.subjectFindMany userId s = Except.error e) :
    getReport db userId req s = (⟨500, Payload.error "Failed to generate report."⟩, s) := by
  simp [getReport, h]

theorem deleteSubject_error_first (db : Prisma) (userId : Int) (req : Request) (s : Store)
    (id : Int) (e : JsError) (hid : parseInt req.id 0 = some id)
    (h : db.attendanceDeleteMany id s = Except.error e) :
    deleteSubject db userId req s = (⟨500, Payload.error "Failed to delete subject."⟩, s) := by
  simp [deleteSubject, hid, h]

theorem deleteSubject_error_second (db : Prisma) (userId : Int) (req : Request) (s : Store)
    (id : Int) (n : Nat) (s1 : Store) (e : JsError) (hid : parseInt req.id 0 = some id)
    (h1 : db.attendanceDeleteMany id s = Except.ok (n, s1))
    (h2 : db.subjectDelete id s1 = Except.error e) :
    deleteSubject db userId req s = (⟨500, Payload.error "Failed to delete subject."⟩, s1) := by
  simp [deleteSubject, hid, h1, h2]

theorem signup_error (db : Prisma) (c : Crypto) (req : Request) (s : Store)
    (n em pw : String) (h1 : req.field "name" = JsVal.str n) (h1' : n ≠ "")
    (h2 : req.field "email" = JsVal.str em) (h2' : em ≠ "")
    (h3 : req.field "password" = JsVal.str pw) (h3' : pw ≠ "") (e : JsError)
    (h : db.userCreate n em (c.hash pw) s = Except.error e) :
    signup db c req s = (⟨400, Payload.error "User with this email already exists."⟩, s) := by
  simp [signup, h1, h2, h3, h1', h2', h3', JsVal.truthy, asString, h]

theorem sampleStore_wf : sampleStore.WF :=
  ⟨by decide, by decide, by decide, by decide⟩

/-! ## Validation of the upsert (C4) -/

/-- C4 as stated fails: Ann's request with `attended_classes = 50` and
`total_classes = 40` passes the middleware and the handler, is answered 200
and overwrites her class row with 40 and 50. -/
theorem postAttendance_counterexample :
    overReq.field "attended_classes" = JsVal.num 50 ∧
    overReq.field "total_classes" = JsVal.num 40 ∧
    (serve prisma sampleCrypto Protected.upsertAttendance overReq sampleStore).1
      = ⟨200, Payload.attendance ⟨1, 1, "class", 40, 50⟩⟩ ∧
    (serve prisma sampleCrypto Protected.upsertAttendance overReq sampleStore).2.attendance
      = [⟨1, 1, "class", 40, 50⟩, ⟨2, 1, "lab", 40, 20⟩, ⟨3, 2, "class", 40, 40⟩,
          ⟨4, 2, "lab", 0, 0⟩] ∧
    (serve prisma sampleCrypto Protected.upsertAttendance overReq sampleStore).2.attendance
      ≠ sampleStore.attendance := by
  decide

/-- C4, amended: `POST /attendance` answers 400, and leaves the store as it
is, exactly when `subjectId` or `type` is falsy or a counter is `null` or
`undefined`; the sign and the order of the counters are not checked: with an
integer `subjectId` of an existing subject, a non-empty `type` and integer
counters the answer is 200 and a row with that key holds the counters. -/
theorem postAttendance_validation (db : Prisma) (userId : Int) (req : Request) (s : Store) :
    ((postAttendance db userId req s).1.status = 400 ↔
      (!(req.field "subjectId").truthy || !(req.field "type").truthy ||
        (req.field "total_classes").looseNull ||
        (req.field "attended_classes").looseNull) = true) ∧
    ((postAttendance db userId req s).1.status = 400 →
      postAttendance db userId req s = (⟨400, Payload.error "All fields are required."⟩, s)) ∧
    (∀ (sid : Int) (ty : String) (total attended : Int),
      req.field "subjectId" = JsVal.num sid → sid ≠ 0 →
      req.field "type" = JsVal.str ty → ty ≠ "" →
      req.field "total_classes" = JsVal.num total →
      req.field "attended_classes" = JsVal.num attended →
      (∃ sub ∈ s.subjects, sub.id = sid) →
      (postAttendance prisma userId req s).1.status = 200 ∧
      ∃ att ∈ (postAttendance prisma userId req s).2.attendance,
        att.subjectId = sid ∧ att.type = ty ∧ att.total_classes = total ∧
        att.attended_classes = attended) := by
  have hiff : (postAttendance db userId req s).1.status = 400 ↔
      (!(req.field "subjectId").truthy || !(req.field "type").truthy ||
        (req.field "total_classes").looseNull ||
        (req.field "attended_classes").looseNull) = true := by
    constructor
    · intro h
      by_contra hm
      rcases postAttendance_present db userId req s (eq_false_of_ne_true hm) with h' | h' <;>
        rw [h'] at h <;> cases h
    · intro hm
      rw [postAttendance_missing db userId req s hm]
  refine ⟨hiff, fun h => postAttendance_missing db userId req s (hiff.1 h), ?_⟩
  intro sid ty total attended h1 h1' h2 h2' h3 h4 hsub
  obtain ⟨updated, s1, hu⟩ := Store.attendanceUpsert_succeeds sid ty total attended s hsub
  have hp := postAttendance_ok prisma userId req s sid ty total attended h1 h1' h2 h2' h3 h4
    updated s1 hu
  obtain ⟨hk, ht, ha, hmem, -⟩ :=
    Store.attendanceUpsert_ok sid ty total attended s s1 updated hu
  rw [hp]
  have hkey := (Store.hasKey_iff sid ty updated).1 hk
  simp only [Prod.mk.injEq] at hkey
  exact ⟨rfl, updated, hmem, hkey.1, hkey.2, ht, ha⟩

/-- C4, amended, on a request with no field and on 50 attended out of 40. -/
theorem postAttendance_validation_witness :
    (postAttendance prisma 1 annReadReq sampleStore).1.status = 400 ∧
    (postAttendance prisma 1 overReq sampleStore).1.status = 200 :=
  ⟨(postAttendance_validation prisma 1 annReadReq sampleStore).1.2 (by decide),
   ((postAttendance_validation prisma 1 overReq sampleStore).2.2 1 "class" 40 50
      (by decide) (by decide) (by decide) (by decide) (by decide) (by decide)
      ⟨⟨1, "Math", 1⟩, by decide, rfl⟩).1⟩

/-! ## Writes across owners (C5) -/

/-- C5 fails on the code: with Ann's token, `DELETE /subjects/2` removes Bob's
subject 2 and its rows, and `POST /attendance` overwrites a row of Bob's
subject; Bob's list and report differ before and after. -/
theorem cross_user_writes :
    authMiddleware sampleCrypto crossDeleteReq = Except.ok 1 ∧
    authMiddleware sampleCrypto crossUpsertReq = Except.ok 1 ∧
    sampleStore.owned 2 = [⟨2, "Physics", 2⟩] ∧
    serve prisma sampleCrypto Protected.deleteSubject crossDeleteReq sampleStore
      = (⟨200, Payload.message "Subject deleted successfully."⟩, annOnlyStore) ∧
    (getSubjects prisma 2 bobReadReq sampleStore).1
      = ⟨200, Payload.subjects
          [⟨2, "Physics", 2, [⟨3, 2, "class", 40, 40⟩, ⟨4, 2, "lab", 0, 0⟩]⟩]⟩ ∧
    (getSubjects prisma 2 bobReadReq annOnlyStore).1 = ⟨200, Payload.subjects []⟩ ∧
    (serve prisma sampleCrypto Protected.upsertAttendance crossUpsertReq sampleStore).1
      = ⟨200, Payload.attendance ⟨3, 2, "class", 10, 0⟩⟩ ∧
    (getSubjects prisma 2 bobReadReq
        (serve prisma sampleCrypto Protected.upsertAttendance crossUpsertReq sampleStore).2).1
      = ⟨200, Payload.subjects
          [⟨2, "Physics", 2, [⟨3, 2, "class", 10, 0⟩, ⟨4, 2, "lab", 0, 0⟩]⟩]⟩ ∧
    (getReport prisma 2 bobReadReq sampleStore).1 = ⟨200, Payload.report ⟨40, 40, 100, 0⟩⟩ ∧
    (getReport prisma 2 bobReadReq
        (serve prisma sampleCrypto Protected.upsertAttendance crossUpsertReq sampleStore).2).1
      = ⟨200, Payload.report ⟨10, 0, 0, 30⟩⟩ := by
  refine ⟨rfl, rfl, by decide, by decide, by decide, by decide, by decide, by decide, ?_, ?_⟩
  · have h : (sampleStore.owned 2).map sampleStore.withAttendance
        = [⟨2, "Physics", 2, [⟨3, 2, "class", 40, 40⟩, ⟨4, 2, "lab", 0, 0⟩]⟩] := by
      decide
    show (⟨200, Payload.report
      (report ((sampleStore.owned 2).map sampleStore.withAttendance))⟩ : Response) = _
    rw [h, report_eval _ 40 40 100 0 (by decide) (by decide) percentage64_40_40
      (by rw [needed_eq]; decide)]
  · have h :
        ((serve prisma sampleCrypto Protected.upsertAttendance crossUpsertReq
            sampleStore).2.owned 2).map
          (serve prisma sampleCrypto Protected.upsertAttendance crossUpsertReq
            sampleStore).2.withAttendance
        = [⟨2, "Physics", 2, [⟨3, 2, "class", 10, 0⟩, ⟨4, 2, "lab", 0, 0⟩]⟩] := by
      decide
    show (⟨200, Payload.report (report
      (((serve prisma sampleCrypto Protected.upsertAttendance crossUpsertReq
            sampleStore).2.owned 2).map
          (serve prisma sampleCrypto Protected.upsertAttendance crossUpsertReq
            sampleStore).2.withAttendance))⟩ : Response) = _
    rw [h, report_eval _ 10 0 0 30 (by decide) (by decide)
      (by simp [percentage64, binary64_zero])
      (by rw [needed_eq]; decide)]

/-! ## Reads are scoped to the caller (C6) -/

/-- C6: `GET /subjects` returns exactly the subjects whose `userId` is the
caller's, each with the rows that reference it, and `GET /report` aggregates
the rows of those subjects only; both answers are the same in any store with
the same subjects of the caller and the same rows of those subjects, so adding
a subject of another user with its rows changes neither. -/
theorem reads_scoped (userId : Int) (req : Request) (s : Store) :
    getSubjects prisma userId req s
      = (⟨200, Payload.subjects ((s.owned userId).map s.withAttendance)⟩, s) ∧
    getReport prisma userId req s
      = (⟨200, Payload.report (report ((s.owned userId).map s.withAttendance))⟩, s) ∧
    (∀ x : SubjectWithAttendance, x ∈ (s.owned userId).map s.withAttendance ↔
      ∃ sub ∈ s.subjects, sub.userId = userId ∧
        x = ⟨sub.id, sub.subject_name, sub.userId,
          s.attendance.filter (fun att => att.subjectId == sub.id)⟩) ∧
    (∀ att ∈ records ((s.owned userId).map s.withAttendance),
      att ∈ s.attendance ∧ ∃ sub ∈ s.subjects, sub.userId = userId ∧ att.subjectId = sub.id) ∧
    (∀ s' : Store, s'.owned userId = s.owned userId →
      (∀ sub ∈ s.owned userId, s'.children sub.id = s.children sub.id) →
      (getSubjects prisma userId req s').1 = (getSubjects prisma userId req s).1 ∧
      (getReport prisma userId req s').1 = (getReport prisma userId req s).1) ∧
    (∀ (b : Subject) (rows : List Attendance), b.userId ≠ userId →
      (∀ att ∈ rows, att.subjectId = b.id) → (∀ sub ∈ s.subjects, sub.id ≠ b.id) →
      (getSubjects prisma userId req
          { s with subjects := s.subjects ++ [b], attendance := s.attendance ++ rows }).1
        = (getSubjects prisma userId req s).1 ∧
      (getReport prisma userId req
          { s with subjects := s.subjects ++ [b], attendance := s.attendance ++ rows }).1
        = (getReport prisma userId req s).1) := by
  have hcongr : ∀ s' : Store, s'.owned userId = s.owned userId →
      (∀ sub ∈ s.owned userId, s'.children sub.id = s.children sub.id) →
      (getSubjects prisma userId req s').1 = (getSubjects prisma userId req s).1 ∧
      (getReport prisma userId req s').1 = (getReport prisma userId req s).1 := by
    intro s' h1 h2
    have := Store.listing_congr s s' userId h1 h2
    simp only [getSubjects, getReport, prisma, Store.subjectFindMany, this, and_self]
  refine ⟨rfl, rfl, ?_, ?_, hcongr, ?_⟩
  · intro x
    simp only [List.mem_map, Store.mem_owned, Store.withAttendance, Store.children]
    constructor
    · rintro ⟨sub, ⟨h1, h2⟩, rfl⟩
      exact ⟨sub, h1, h2, rfl⟩
    · rintro ⟨sub, h1, h2, rfl⟩
      exact ⟨sub, ⟨h1, h2⟩, rfl⟩
  · intro att hatt
    simp only [records, List.mem_flatMap, List.mem_map, Store.mem_owned] at hatt
    obtain ⟨x, ⟨sub, ⟨h1, h2⟩, rfl⟩, hx⟩ := hatt
    have := (Store.mem_children s sub.id att).1 hx
    exact ⟨this.1, sub, h1, h2, this.2⟩
  · intro b rows hb hrows hfresh
    apply hcongr
    · simp [Store.owned, List.filter_append, hb]
    · intro sub hsub
      have hid : sub.id ≠ b.id := hfresh sub ((Store.mem_owned s userId sub).1 hsub).1
      have : rows.filter (fun att => att.subjectId == sub.id) = [] := by
        rw [List.filter_eq_nil_iff]
        intro att hatt
        simp only [beq_iff_eq, hrows att hatt]
        exact fun h => hid h.symm
      simp [Store.children, List.filter_append, this]

/-- C6 on the sample store: Ann's list and report are the same with and
without Bob's subject. -/
theorem reads_scoped_witness :
    (getSubjects prisma 1 annReadReq annOnlyStore).1
      = (getSubjects prisma 1 annReadReq sampleStore).1 ∧
    (getReport prisma 1 annReadReq annOnlyStore).1
      = (getReport prisma 1 annReadReq sampleStore).1 :=
  (reads_scoped 1 annReadReq sampleStore).2.2.2.2.1 annOnlyStore (by decide) (by decide)

/-! ## The middleware (C7) -/

/-- C7: for every protected route, a request without a bearer token, or with a
token that fails verification, is answered 401, the store is unchanged and the
answer is the same whatever the handler (it is not called); when verification
succeeds the handler runs with the id decoded from the token, whatever the
request body holds. -/
theorem auth_gate (db : Prisma) (c : Crypto) (r : Protected) (req : Request) (s : Store) :
    ((bearerToken req = none ∨ bearerToken req = some "" ∨
        ∃ t, bearerToken req = some t ∧ c.verify t = none) →
      (serve db c r req s).1.status = 401 ∧ (serve db c r req s).2 = s ∧
      ∀ handler : Int → Request → Store → Response × Store,
        withAuth c handler req s = serve db c r req s) ∧
    (req.authorization = none → bearerToken req = none) ∧
    (∀ (t : String) (userId : Int), bearerToken req = some t → t ≠ "" →
        c.verify t = some userId →
      serve db c r req s = r.handler db userId req s ∧
      ∀ body : List (String × JsVal),
        serve db c r { req with body := body } s
          = r.handler db userId { req with body := body } s) := by
  refine ⟨?_, ?_, ?_⟩
  · intro h
    obtain ⟨res, hres⟩ := authMiddleware_rejects c req h
    have hs : serve db c r req s = (res, s) := withAuth_error c _ req s res hres
    refine ⟨?_, ?_, ?_⟩
    · rw [hs]; exact authMiddleware_status c req res hres
    · rw [hs]
    · intro handler
      rw [hs]; exact withAuth_error c handler req s res hres
  · intro h
    simp [bearerToken, h]
  · intro t userId h ht hv
    refine ⟨withAuth_ok c _ req s userId (authMiddleware_accepts c req t userId h ht hv), ?_⟩
    intro body
    exact withAuth_ok c _ _ s userId (authMiddleware_accepts c _ t userId h ht hv)

/-- C7 on a request without a header and on one with Ann's token and Bob's id
in the body. -/
theorem auth_gate_witness :
    ((serve prisma sampleCrypto Protected.createSubject anonymousReq sampleStore).1.status = 401 ∧
      (serve prisma sampleCrypto Protected.createSubject anonymousReq sampleStore).2
        = sampleStore) ∧
    serve prisma sampleCrypto Protected.createSubject createReq sampleStore
      = postSubjects prisma 1 createReq sampleStore :=
  ⟨⟨((auth_gate prisma sampleCrypto Protected.createSubject anonymousReq sampleStore).1
        (Or.inl (by decide))).1,
    ((auth_gate prisma sampleCrypto Protected.createSubject anonymousReq sampleStore).1
        (Or.inl (by decide))).2.1⟩,
   ((auth_gate prisma sampleCrypto Protected.createSubject createReq sampleStore).2.2
      "ann" 1 (by decide) (by decide) (by decide)).1⟩

/-! ## Creation of a subject (C8) -/

/-- C8: for an authenticated caller who is a user of a well-formed store,
`POST /subjects` with a non-empty `subject_name` answers 201 with a subject
owned by the caller whose attendance is exactly one "class" row and one "lab"
row, both with zero counts, and stores that subject and those rows; with a
missing or empty `subject_name` it answers 400 and the store is unchanged. -/
theorem create_subject (c : Crypto) (userId : Int) (req : Request) (s : Store)
    (hauth : authMiddleware c req = Except.ok userId) :
    (∀ name : String, req.field "subject_name" = JsVal.str name → name ≠ "" → s.WF →
      (∃ u ∈ s.users, u.id = userId) →
      serve prisma c Protected.createSubject req s =
        (⟨201, Payload.subject
            ⟨s.subjectSeq, name, userId,
              [⟨s.attendanceSeq, s.subjectSeq, "class", 0, 0⟩,
                ⟨s.attendanceSeq + 1, s.subjectSeq, "lab", 0, 0⟩]⟩⟩,
          { s with
            subjects := s.subjects ++ [⟨s.subjectSeq, name, userId⟩]
            attendance := s.attendance ++
              [⟨s.attendanceSeq, s.subjectSeq, "class", 0, 0⟩,
                ⟨s.attendanceSeq + 1, s.subjectSeq, "lab", 0, 0⟩]
            subjectSeq := s.subjectSeq + 1
            attendanceSeq := s.attendanceSeq + 2 })) ∧
    ((req.body.lookup "subject_name" = none ∨ req.field "subject_name" = JsVal.str "") →
      ∀ db : Prisma, serve db c Protected.createSubject req s
        = (⟨400, Payload.error "Subject name is required."⟩, s)) := by
  constructor
  · intro name h1 h2 hwf hu
    have hs : serve prisma c Protected.createSubject req s = postSubjects prisma userId req s :=
      withAuth_ok c _ req s userId hauth
    rw [hs]
    exact postSubjects_ok prisma userId req s name h1 h2 _ _
      (Store.subjectCreate_seeded s hwf name userId hu)
  · intro h db
    have hs : serve db c Protected.createSubject req s = postSubjects db userId req s :=
      withAuth_ok c _ req s userId hauth
    rw [hs]
    apply postSubjects_missing
    rcases h with h | h
    · simp [Request.field, h, JsVal.truthy]
    · simp [h, JsVal.truthy]

/-- C8 on the sample store: Ann creates "Math"; a request without a name is
answered 400. -/
theorem create_subject_witness :
    serve prisma sampleCrypto Protected.createSubject createReq sampleStore =
      (⟨201, Payload.subject
          ⟨3, "Math", 1, [⟨5, 3, "class", 0, 0⟩, ⟨6, 3, "lab", 0, 0⟩]⟩⟩,
        { sampleStore with
          subjects := sampleStore.subjects ++ [⟨3, "Math", 1⟩]
          attendance := sampleStore.attendance ++
            [⟨5, 3, "class", 0, 0⟩, ⟨6, 3, "lab", 0, 0⟩]
          subjectSeq := 4
          attendanceSeq := 7 }) ∧
    serve prisma sampleCrypto Protected.createSubject annReadReq sampleStore
      = (⟨400, Payload.error "Subject name is required."⟩, sampleStore) :=
  ⟨(create_subject sampleCrypto 1 createReq sampleStore rfl).1 "Math" (by decide) (by decide)
      sampleStore_wf ⟨⟨1, "Ann", "ann@example.org", "hash-a"⟩, by decide, rfl⟩,
   (create_subject sampleCrypto 1 annReadReq sampleStore rfl).2 (Or.inl (by decide)) prisma⟩

/-! ## Idempotence of the upsert (C9) -/

/-- C9: for every store and every request that `POST /attendance` answers with
200, the same request on the resulting store gives the same answer and leaves
that store as it is, so the stored rows and every user's report are the same
after the second call as after the first; when `(subjectId, type)` was unique
before it still is, and exactly one row has the key of the request, holding
the counters of the request. -/
theorem upsert_idempotent (userId : Int) (req : Request) (s : Store)
    (h : (postAttendance prisma userId req s).1.status = 200) :
    postAttendance prisma userId req (postAttendance prisma userId req s).2
      = postAttendance prisma userId req s ∧
    (postAttendance prisma userId req (postAttendance prisma userId req s).2).2.attendance
      = (postAttendance prisma userId req s).2.attendance ∧
    (∀ (u : Int) (r : Request),
      getReport prisma u r
          (postAttendance prisma userId req (postAttendance prisma userId req s).2).2
        = getReport prisma u r (postAttendance prisma userId req s).2) ∧
    ∃ (sid : Int) (ty : String) (total attended : Int),
      req.field "subjectId" = JsVal.num sid ∧ req.field "type" = JsVal.str ty ∧
      req.field "total_classes" = JsVal.num total ∧
      req.field "attended_classes" = JsVal.num attended ∧
      ((s.attendance.map (fun att => (att.subjectId, att.type))).Nodup →
        ((postAttendance prisma userId req
            (postAttendance prisma userId req s).2).2.attendance.map
          (fun att => (att.subjectId, att.type))).Nodup ∧
        ∃ att : Attendance,
          (postAttendance prisma userId req
              (postAttendance prisma userId req s).2).2.attendance.filter
            (fun x => x.subjectId == sid && x.type == ty) = [att] ∧
          att.total_classes = total ∧ att.attended_classes = attended) := by
  obtain ⟨sid, ty, total, attended, updated, s1, h1, h2, h3, h4, hu, hp⟩ :=
    postAttendance_accepted prisma userId req s h
  have h1' : sid ≠ 0 := by
    intro h0
    have hm := postAttendance_missing prisma userId req s (by simp [h1, h0, JsVal.truthy])
    rw [hm] at h
    cases h
  have h2' : ty ≠ "" := by
    intro h0
    have hm := postAttendance_missing prisma userId req s (by simp [h2, h0, JsVal.truthy])
    rw [hm] at h
    cases h
  have hu2 : prisma.attendanceUpsert sid ty total attended s1 = Except.ok (updated, s1) :=
    Store.attendanceUpsert_idem sid ty total attended s s1 updated hu
  have hp2 := postAttendance_ok prisma userId req s1 sid ty total attended h1 h1' h2 h2' h3 h4
    updated s1 hu2
  have hsnd : (postAttendance prisma userId req s).2 = s1 := by rw [hp]
  have hidem : postAttendance prisma userId req (postAttendance prisma userId req s).2
      = postAttendance prisma userId req s := by
    rw [hsnd, hp2, hp]
  refine ⟨hidem, by rw [hidem], fun u r => by rw [hidem], sid, ty, total, attended, h1, h2, h3,
    h4, ?_⟩
  intro hn
  obtain ⟨-, ht, ha, -, -, -, hrest⟩ :=
    Store.attendanceUpsert_ok sid ty total attended s s1 updated hu
  obtain ⟨hn1, hf⟩ := hrest hn
  rw [hidem, hsnd]
  exact ⟨hn1, updated, hf, ht, ha⟩

/-- C9 on the sample store. -/
theorem upsert_idempotent_witness :
    postAttendance prisma 1 overReq (postAttendance prisma 1 overReq sampleStore).2
      = postAttendance prisma 1 overReq sampleStore :=
  (upsert_idempotent 1 overReq sampleStore (by decide)).1

/-! ## Storage failures (C10) -/

/-- C10 as stated fails: when the database is unreachable, signup answers 400
with the duplicate-email message, and the login handler rejects without a
reply. -/
theorem storage_failure_counterexample :
    downPrisma.userCreate "Cy" "cy@example.org" (sampleCrypto.hash "pw") sampleStore
      = Except.error JsError.connection ∧
    signup downPrisma sampleCrypto signupReq sampleStore
      = (⟨400, Payload.error "User with this email already exists."⟩, sampleStore) ∧
    downPrisma.userFindUnique "ann@example.org" sampleStore = Except.error JsError.connection ∧
    login downPrisma sampleCrypto loginReq sampleStore = Except.error JsError.connection :=
  ⟨rfl, by decide, rfl, rfl⟩

/-- C10, amended: in each of the five protected routes a failing storage call
is caught and answered with status 500 and the fixed message of the route;
in signup a failing `prisma.user.create` is caught and answered with status
400. -/
theorem storage_failure (db : Prisma) (c : Crypto) (userId : Int) (req : Request) (s : Store)
    (e : JsError) :
    (∀ name : String, req.field "subject_name" = JsVal.str name → name ≠ "" →
      db.subjectCreate name userId [("class", 0, 0), ("lab", 0, 0)] s = Except.error e →
      postSubjects db userId req s = (⟨500, Payload.error "Failed to add subject."⟩, s)) ∧
    (db.subjectFindMany userId s = Except.error e →
      getSubjects db userId req s = (⟨500, Payload.error "Failed to fetch subjects."⟩, s) ∧
      getReport db userId req s = (⟨500, Payload.error "Failed to generate report."⟩, s)) ∧
    (∀ (sid : Int) (ty : String) (total attended : Int),
      req.field "subjectId" = JsVal.num sid → sid ≠ 0 →
      req.field "type" = JsVal.str ty → ty ≠ "" →
      req.field "total_classes" = JsVal.num total →
      req.field "attended_classes" = JsVal.num attended →
      db.attendanceUpsert sid ty total attended s = Except.error e →
      postAttendance db userId req s
        = (⟨500, Payload.error "Failed to update attendance."⟩, s)) ∧
    (∀ id : Int, parseInt req.id 0 = some id →
      (db.attendanceDeleteMany id s = Except.error e →
        deleteSubject db userId req s
          = (⟨500, Payload.error "Failed to delete subject."⟩, s)) ∧
      (∀ (n : Nat) (s1 : Store), db.attendanceDeleteMany id s = Except.ok (n, s1) →
        db.subjectDelete id s1 = Except.error e →
        deleteSubject db userId req s
          = (⟨500, Payload.error "Failed to delete subject."⟩, s1))) ∧
    (∀ n em pw : String, req.field "name" = JsVal.str n → n ≠ "" →
      req.field "email" = JsVal.str em → em ≠ "" →
      req.field "password" = JsVal.str pw → pw ≠ "" →
      db.userCreate n em (c.hash pw) s = Except.error e →
      signup db c req s
        = (⟨400, Payload.error "User with this email already exists."⟩, s)) := by
  refine ⟨?_, ?_, ?_, ?_, ?_⟩
  · intro name h1 h2 h
    exact postSubjects_error db userId req s name h1 h2 e h
  · intro h
    exact ⟨getSubjects_error db userId req s e h, getReport_error db userId req s e h⟩
  · intro sid ty total attended h1 h1' h2 h2' h3 h4 h
    exact postAttendance_error db userId req s sid ty total attended h1 h1' h2 h2' h3 h4 e h
  · intro id hid
    exact ⟨fun h => deleteSubject_error_first db userId req s id e hid h,
      fun n s1 h1 h2 => deleteSubject_error_second db userId req s id n s1 e hid h1 h2⟩
  · intro n em pw h1 h1' h2 h2' h3 h3' h
    exact signup_error db c req s n em pw h1 h1' h2 h2' h3 h3' e h

/-- C10, amended, on an unreachable database and on a delete of a subject that
does not exist. -/
theorem storage_failure_witness :
    (getSubjects downPrisma 1 annReadReq sampleStore).1
      = ⟨500, Payload.error "Failed to fetch subjects."⟩ ∧
    (deleteSubject prisma 1 ⟨none, [], "9"⟩ sampleStore).1
      = ⟨500, Payload.error "Failed to delete subject."⟩ :=
  ⟨congrArg Prod.fst
      ((storage_failure downPrisma sampleCrypto 1 annReadReq sampleStore
        JsError.connection).2.1 rfl).1,
   congrArg Prod.fst
      (((storage_failure prisma sampleCrypto 1 ⟨none, [], "9"⟩ sampleStore
        JsError.recordNotFound).2.2.2.1 9 (by decide)).2 0 sampleStore rfl rfl)⟩

/-! ## Bounds on the percentage (C11) -/

theorem percentage_bounds (total attended : Int) (_ht : 0 ≤ total) (ha : 0 ≤ attended)
    (hle : attended ≤ total) :
    0 ≤ percentage total attended ∧ percentage total attended ≤ 100 := by
  unfold percentage
  by_cases h : total > 0
  · have hq : (0 : ℚ) < (total : ℚ) := by exact_mod_cast h
    have haq : (0 : ℚ) ≤ (attended : ℚ) := by exact_mod_cast ha
    have hleq : (attended : ℚ) ≤ (total : ℚ) := by exact_mod_cast hle
    simp only [h, if_true]
    constructor
    · positivity
    · rw [div_mul_eq_mul_div, div_le_iff₀ hq]
      linarith
  · simp [h]

/-- C11: for non-negative integers `total` and `attended` with
`attended ≤ total`, the percentage of the report lies between 0 and 100; as an
exact rational it is `100 * attended / total` when `total > 0` and `0` when
`total = 0`. -/
theorem percentage_range (total attended : Int) (ht : 0 ≤ total) (ha : 0 ≤ attended)
    (hle : attended ≤ total) :
    (0 ≤ percentage total attended ∧ percentage total attended ≤ 100) ∧
    (total > 0 → percentage total attended = 100 * (attended : ℚ) / (total : ℚ)) ∧
    (total = 0 → percentage total attended = 0) ∧
    (∀ subjects : List SubjectWithAttendance,
      (report subjects).total = total → (report subjects).attended = attended →
      0 ≤ (report subjects).percentage ∧ (report subjects).percentage ≤ 100) := by
  refine ⟨percentage_bounds total attended ht ha hle, ?_, ?_, ?_⟩
  · intro h
    simp only [percentage, h, if_true]
    ring
  · intro h
    simp [percentage, h]
  · intro subjects h1 h2
    have : (report subjects).percentage = percentage64 total attended := by
      rw [← h1, ← h2]; rfl
    rw [this]
    exact percentage64_bounds total attended ha hle

/-- C11 at 100 classes with 70 attended. -/
theorem percentage_range_witness :
    0 ≤ (report [mathSubject]).percentage ∧ (report [mathSubject]).percentage ≤ 100 :=
  (percentage_range 100 70 (by decide) (by decide) (by decide)).2.2.2 [mathSubject]
    (by rw [report_total]; decide) (by rw [report_attended]; decide)

/-! ## Lemmas on the dashboard -/

theorem numValue_nonneg (value : String) : 0 ≤ numValue value := by
  unfold numValue
  split
  · exact le_refl 0
  · split
    · exact le_refl 0
    · omega

theorem updatedAtt_type (field : Field) (num : Int) (att : Attendance) :
    (updatedAtt field num att).type = att.type ∧ (updatedAtt field num att).id = att.id ∧
    (updatedAtt field num att).subjectId = att.subjectId := by
  unfold updatedAtt
  cases field <;> simp only [Attendance.set] <;> split <;> (try split) <;> simp

/-- The record that `handleInputChange` writes for a record of the edited
type, by the edited field. -/
theorem updatedAtt_total (num : Int) (att : Attendance) :
    (updatedAtt Field.total_classes num att).total_classes = num ∧
    (updatedAtt Field.total_classes num att).attended_classes = min att.attended_classes num := by
  unfold updatedAtt
  simp only [Attendance.set, reduceCtorEq, false_and, if_false, true_and]
  split
  · rename_i h
    exact ⟨rfl, (min_eq_right (le_of_lt h)).symm⟩
  · rename_i h
    exact ⟨rfl, (min_eq_left (not_lt.1 h)).symm⟩

theorem updatedAtt_attended (num : Int) (att : Attendance) :
    (updatedAtt Field.attended_classes num att).total_classes = att.total_classes ∧
    (updatedAtt Field.attended_classes num att).attended_classes = min num att.total_classes := by
  unfold updatedAtt
  simp only [Attendance.set, reduceCtorEq, false_and, if_false, true_and]
  split
  · rename_i h
    exact ⟨rfl, (min_eq_right (le_of_lt h)).symm⟩
  · rename_i h
    exact ⟨rfl, (min_eq_left (not_lt.1 h)).symm⟩

theorem updatedAtt_le (field : Field) (num : Int) (att : Attendance) :
    (updatedAtt field num att).attended_classes ≤ (updatedAtt field num att).total_classes := by
  cases field
  · obtain ⟨h1, h2⟩ := updatedAtt_total num att
    rw [h1, h2]; exact min_le_right _ _
  · obtain ⟨h1, h2⟩ := updatedAtt_attended num att
    rw [h1, h2]; exact min_le_right _ _

/-- Every record of the edited subject and type in the new state is the edit
of a record of that subject and type in the old state. -/
theorem handleInputChange_mem (subjects : List SubjectWithAttendance) (subjectId : Int)
    (type : String) (field : Field) (value : String) (sub : SubjectWithAttendance)
    (hsub : sub ∈ handleInputChange subjects subjectId type field value)
    (hid : sub.id = subjectId) (att : Attendance) (hatt : att ∈ sub.attendance)
    (hty : att.type = type) :
    ∃ sub0 ∈ subjects, sub0.id = subjectId ∧ ∃ att0 ∈ sub0.attendance, att0.type = type ∧
      att = updatedAtt field (numValue value) att0 := by
  unfold handleInputChange at hsub
  obtain ⟨sub0, hsub0, rfl⟩ := List.mem_map.1 hsub
  by_cases h0 : sub0.id = subjectId
  · simp only [h0, if_true] at hatt hid
    obtain ⟨att0, hatt0, rfl⟩ := List.mem_map.1 hatt
    by_cases ht : att0.type = type
    · simp only [ht, if_true]
      exact ⟨sub0, hsub0, h0, att0, hatt0, ht, rfl⟩
    · simp only [ht, if_false] at hty
  · simp only [h0, if_false] at hid

theorem handleSaveAttendance_sends (subjects : List SubjectWithAttendance) (subjectId : Int)
    (type : String) (sid : Int) (ty : String) (newTotal newAttended : Int)
    (h : handleSaveAttendance subjects subjectId type
      = SaveAction.updateAttendance sid ty newTotal newAttended) :
    newAttended ≤ newTotal ∧ sid = subjectId ∧ ty = type ∧
    ∃ sub ∈ subjects, sub.id = subjectId ∧ ∃ att ∈ sub.attendance, att.type = type ∧
      att.total_classes = newTotal ∧ att.attended_classes = newAttended := by
  unfold handleSaveAttendance at h
  split at h
  · cases h
  · rename_i subject hfs
    split at h
    · cases h
    · rename_i attendance hfa
      split at h
      · cases h
      · rename_i hgt
        simp only [SaveAction.updateAttendance.injEq] at h
        obtain ⟨h1, h2, h3, h4⟩ := h
        have hs := List.find?_some hfs
        have ha := List.find?_some hfa
        simp only [beq_iff_eq] at hs ha
        refine ⟨by omega, h1.symm, h2.symm, subject, List.mem_of_find?_eq_some hfs, hs,
          attendance, List.mem_of_find?_eq_some hfa, ha, h3, h4⟩

theorem handleSaveAttendance_no_alert (subjects : List SubjectWithAttendance) (subjectId : Int)
    (type : String)
    (h : ∀ sub ∈ subjects, sub.id = subjectId → ∀ att ∈ sub.attendance, att.type = type →
      att.attended_classes ≤ att.total_classes) (msg : String) :
    handleSaveAttendance subjects subjectId type ≠ SaveAction.alert msg := by
  intro hs
  unfold handleSaveAttendance at hs
  split at hs
  · cases hs
  · rename_i subject hfs
    split at hs
    · cases hs
    · rename_i attendance hfa
      split at hs
      · rename_i hgt
        have h1 := List.find?_some hfs
        have h2 := List.find?_some hfa
        simp only [beq_iff_eq] at h1 h2
        have := h subject (List.mem_of_find?_eq_some hfs) h1 attendance
          (List.mem_of_find?_eq_some hfa) h2
        omega
      · cases hs

/-! ## The invariant on the caller side (C12) -/

/-- C12 as stated fails: on a state whose class row has `total_classes = -5`,
editing `attended_classes` with the input "3" writes `-5`, so the edited field
is negative. -/
theorem handleInputChange_counterexample :
    numValue "3" = 3 ∧
    handleInputChange negativeState 1 "class" Field.attended_classes "3"
      = [⟨1, "Math", 1, [⟨1, 1, "class", -5, -5⟩, ⟨2, 1, "lab", 40, 20⟩]⟩] ∧
    ∃ sub ∈ handleInputChange negativeState 1 "class" Field.attended_classes "3",
      sub.id = 1 ∧ ∃ att ∈ sub.attendance, att.type = "class" ∧ att.attended_classes < 0 := by
  refine ⟨by decide, by decide, ⟨1, "Math", 1, [⟨1, 1, "class", -5, -5⟩, ⟨2, 1, "lab", 40, 20⟩]⟩,
    by decide, rfl, ⟨1, 1, "class", -5, -5⟩, by decide, rfl, by decide⟩

/-- C12, amended: for every state, subject id, type, field and input string,
the parsed number is a non-negative integer (an unparsable or negative input
becomes 0); every record of the new state under the edited subject and type
has `attended_classes ≤ total_classes`; an edited `total_classes` is the
parsed number, an edited `attended_classes` is the smaller of the parsed
number and the record's `total_classes`, hence non-negative when that
`total_classes` was; counters that were both non-negative stay so; and
`handleSaveAttendance` never sends `attended_classes > total_classes`, nor
alerts on the edited record. -/
theorem handleInputChange_invariant (subjects : List SubjectWithAttendance) (subjectId : Int)
    (type : String) (field : Field) (value : String) :
    (0 ≤ numValue value ∧ (parseInt value 10 = none → numValue value = 0) ∧
      (∀ n : Int, parseInt value 10 = some n → n < 0 → numValue value = 0) ∧
      (∀ n : Int, parseInt value 10 = some n → 0 ≤ n → numValue value = n)) ∧
    (∀ sub ∈ handleInputChange subjects subjectId type field value, sub.id = subjectId →
      ∀ att ∈ sub.attendance, att.type = type →
        att.attended_classes ≤ att.total_classes ∧
        (field = Field.total_classes → att.total_classes = numValue value) ∧
        ∃ sub0 ∈ subjects, sub0.id = subjectId ∧ ∃ att0 ∈ sub0.attendance,
          att0.type = type ∧ att0.id = att.id ∧
          (field = Field.attended_classes →
            att.total_classes = att0.total_classes ∧
            att.attended_classes = min (numValue value) att0.total_classes ∧
            (0 ≤ att0.total_classes → 0 ≤ att.attended_classes)) ∧
          (0 ≤ att0.attended_classes → 0 ≤ att0.total_classes →
            0 ≤ att.attended_classes ∧ 0 ≤ att.total_classes)) ∧
    (∀ msg : String,
      handleSaveAttendance (handleInputChange subjects subjectId type field value) subjectId type
        ≠ SaveAction.alert msg) ∧
    (∀ (state : List SubjectWithAttendance) (sid : Int) (ty : String) (sid' : Int)
        (ty' : String) (newTotal newAttended : Int),
      handleSaveAttendance state sid ty = SaveAction.updateAttendance sid' ty' newTotal newAttended →
      newAttended ≤ newTotal) := by
  have hnum := numValue_nonneg value
  have hinv : ∀ sub ∈ handleInputChange subjects subjectId type field value,
      sub.id = subjectId → ∀ att ∈ sub.attendance, att.type = type →
        att.attended_classes ≤ att.total_classes := by
    intro sub hsub hid att hatt hty
    obtain ⟨sub0, -, -, att0, -, -, rfl⟩ :=
      handleInputChange_mem subjects subjectId type field value sub hsub hid att hatt hty
    exact updatedAtt_le field (numValue value) att0
  refine ⟨⟨hnum, ?_, ?_, ?_⟩, ?_, ?_, ?_⟩
  · intro h
    simp [numValue, h]
  · intro n h hn
    simp [numValue, h, hn]
  · intro n h hn
    simp [numValue, h, not_lt.2 hn]
  · intro sub hsub hid att hatt hty
    refine ⟨hinv sub hsub hid att hatt hty, ?_, ?_⟩
    · intro hf
      obtain ⟨sub0, -, -, att0, -, -, rfl⟩ :=
        handleInputChange_mem subjects subjectId type field value sub hsub hid att hatt hty
      subst hf
      exact (updatedAtt_total (numValue value) att0).1
    · obtain ⟨sub0, hsub0, hid0, att0, hatt0, hty0, rfl⟩ :=
        handleInputChange_mem subjects subjectId type field value sub hsub hid att hatt hty
      refine ⟨sub0, hsub0, hid0, att0, hatt0, hty0,
        (updatedAtt_type field (numValue value) att0).2.1.symm, ?_, ?_⟩
      · intro hf
        subst hf
        obtain ⟨h1, h2⟩ := updatedAtt_attended (numValue value) att0
        refine ⟨h1, h2, ?_⟩
        intro h0
        rw [h2]
        exact le_min hnum h0
      · intro ha ht
        cases field
        · obtain ⟨h1, h2⟩ := updatedAtt_total (numValue value) att0
          rw [h1, h2]
          exact ⟨le_min ha hnum, hnum⟩
        · obtain ⟨h1, h2⟩ := updatedAtt_attended (numValue value) att0
          rw [h1, h2]
          exact ⟨le_min hnum ht, ht⟩
  · intro msg
    exact handleSaveAttendance_no_alert _ subjectId type hinv msg
  · intro state sid ty sid' ty' newTotal newAttended h
    exact (handleSaveAttendance_sends state sid ty sid' ty' newTotal newAttended h).1

/-- C12, amended, on the sample subject with the input "99" for
`attended_classes`. -/
theorem handleInputChange_invariant_witness :
    (⟨1, 1, "class", 60, 60⟩ : Attendance).attended_classes
      ≤ (⟨1, 1, "class", 60, 60⟩ : Attendance).total_classes ∧
    handleSaveAttendance
        (handleInputChange [mathSubject] 1 "class" Field.attended_classes "99") 1 "class"
      ≠ SaveAction.alert "Attended classes cannot be more than total classes." :=
  ⟨((handleInputChange_invariant [mathSubject] 1 "class" Field.attended_classes "99").2.1
      ⟨1, "Math", 1, [⟨1, 1, "class", 60, 60⟩, ⟨2, 1, "lab", 40, 20⟩]⟩ (by decide) rfl
      ⟨1, 1, "class", 60, 60⟩ (by decide) rfl).1,
   (handleInputChange_invariant [mathSubject] 1 "class" Field.attended_classes "99").2.2.1 _⟩

/-! ## Overall and per-subject `needed` (C13) -/

theorem needed_of_valid (total attended : Int) (ha : 0 ≤ attended) (hle : attended ≤ total) :
    needed total attended = max 0 (3 * total - 4 * attended) := by
  rw [needed_eq]
  split
  · rename_i h
    rw [max_eq_left (by omega)]
  · rename_i h
    rw [max_eq_right (by omega)]

theorem card_needed (sub : SubjectWithAttendance) :
    (card sub).needed = needed (sumTotal sub.attendance) (sumAttended sub.attendance) := by
  rw [← card_totalClasses, ← card_attendedClasses]
  rfl

theorem records_cons (sub : SubjectWithAttendance) (rest : List SubjectWithAttendance) :
    records (sub :: rest) = sub.attendance ++ records rest := by
  simp [records]

/-- The sum of the cards' `needed` is non-negative and at least `3 T - 4 A`
for the overall sums `T` and `A`, when every record has
`0 ≤ attended_classes ≤ total_classes`. -/
theorem sum_card_needed_ge (subjects : List SubjectWithAttendance)
    (h : ∀ att ∈ records subjects,
      0 ≤ att.attended_classes ∧ att.attended_classes ≤ att.total_classes) :
    0 ≤ (subjects.map (fun sub => (card sub).needed)).sum ∧
    3 * sumTotal (records subjects) - 4 * sumAttended (records subjects)
      ≤ (subjects.map (fun sub => (card sub).needed)).sum := by
  induction subjects with
  | nil => simp [records, sumTotal, sumAttended]
  | cons sub rest ih =>
    have hsub : ∀ att ∈ sub.attendance,
        0 ≤ att.attended_classes ∧ att.attended_classes ≤ att.total_classes := by
      intro att hatt
      exact h att (by rw [records_cons]; exact List.mem_append_left _ hatt)
    have hrest : ∀ att ∈ records rest,
        0 ≤ att.attended_classes ∧ att.attended_classes ≤ att.total_classes := by
      intro att hatt
      exact h att (by rw [records_cons]; exact List.mem_append_right _ hatt)
    obtain ⟨ih1, ih2⟩ := ih hrest
    have h1 := sumAttended_nonneg sub.attendance (fun att hatt => (hsub att hatt).1)
    have h2 := sumAttended_le_sumTotal sub.attendance (fun att hatt => (hsub att hatt).2)
    have hn := needed_of_valid _ _ h1 h2
    have hmax1 : 0 ≤ needed (sumTotal sub.attendance) (sumAttended sub.attendance) := by
      rw [hn]; exact le_max_left _ _
    have hmax2 : 3 * sumTotal sub.attendance - 4 * sumAttended sub.attendance
        ≤ needed (sumTotal sub.attendance) (sumAttended sub.attendance) := by
      rw [hn]; exact le_max_right _ _
    rw [← card_needed] at hmax1 hmax2
    simp only [List.map_cons, List.sum_cons, records_cons, sumTotal_append,
      sumAttended_append]
    constructor <;> omega

/-- C13: when every attendance record has `0 ≤ attended_classes ≤
total_classes`, the `needed` of the report is at most the sum of the `needed`
of the dashboard cards of the subjects; in particular it is 0 when every
card's `needed` is 0. -/
theorem needed_subadditive (subjects : List SubjectWithAttendance)
    (h : ∀ att ∈ records subjects,
      0 ≤ att.attended_classes ∧ att.attended_classes ≤ att.total_classes) :
    (report subjects).needed ≤ (subjects.map (fun sub => (card sub).needed)).sum ∧
    ((∀ sub ∈ subjects, (card sub).needed = 0) → (report subjects).needed = 0) := by
  have h1 := sumAttended_nonneg (records subjects) (fun att hatt => (h att hatt).1)
  have h2 := sumAttended_le_sumTotal (records subjects) (fun att hatt => (h att hatt).2)
  have hn := needed_of_valid _ _ h1 h2
  obtain ⟨hs1, hs2⟩ := sum_card_needed_ge subjects h
  have hle : (report subjects).needed ≤ (subjects.map (fun sub => (card sub).needed)).sum := by
    rw [report_needed, hn]
    exact max_le hs1 hs2
  refine ⟨hle, ?_⟩
  intro hall
  have hzero : (subjects.map (fun sub => (card sub).needed)).sum = 0 := by
    apply List.sum_eq_zero
    intro x hx
    obtain ⟨sub, hsub, rfl⟩ := List.mem_map.1 hx
    exact hall sub hsub
  have hge : 0 ≤ (report subjects).needed := by
    rw [report_needed, hn]; exact le_max_left _ _
  omega

/-- C13 on the two sample subjects: overall 110 of 140 needs 0, the cards need
20 and 0. -/
theorem needed_subadditive_witness :
    (report [mathSubject, physicsSubject]).needed
      ≤ ([mathSubject, physicsSubject].map (fun sub => (card sub).needed)).sum :=
  (needed_subadditive [mathSubject, physicsSubject] (by decide)).1

end Atten
